import Mathlib

/-!
Verification development for the `py-serializer` SEC EDGAR filing parser
(`src/pyserializer.py`).

Embedding conventions:
* Python `str` is embedded as `List Char`; `sl` converts a Lean string
  literal to that representation.
* The line source (`IO[str]` consumed via `readline`) is a `List (List Char)`
  of the successive lines (each line keeps its trailing newline, as
  `readline` does); the empty list is end of input.
* A Python dict is an insertion-ordered association list `Record`;
  assigning to an existing key keeps its position (`setKey`), as Python
  dicts do.
* The two loops (`process_nested_fields`, `processTxtHeader`) are embedded
  with an explicit fuel counter; `PResult.out` means the fuel ran out.
  `processTxtHeader` can actually loop forever on end of input, so the
  fuel is essential there.
* `logging.warning` calls are modelled as an accumulating `List Warning`;
  `raise ValueError(...)` is modelled as `PResult.err` with a constructor
  per error message.
-/

set_option maxHeartbeats 1000000

/-- Convert a Lean string literal to the `List Char` representation used for
Python strings throughout this development. -/
def sl (s : String) : List Char := s.data

/-- Characters removed by Python's `str.strip()` (default whitespace). -/
def isPyWs (c : Char) : Bool :=
  c == ' ' || c == '\t' || c == '\n' || c == '\r' || c == '\x0b' || c == '\x0c'

/-- Python `s.strip()`: drop whitespace from both ends. -/
def pyStrip (s : List Char) : List Char :=
  ((s.dropWhile isPyWs).reverse.dropWhile isPyWs).reverse

/-- Python `s.split(c, 1)`: split on the first occurrence of `c` only.
Returns a one-element list when `c` does not occur (so the result is never
empty, exactly as in Python). -/
def splitOnce (c : Char) : List Char → List (List Char)
  | [] => [[]]
  | x :: xs =>
    if x = c then [[], xs]
    else
      match splitOnce c xs with
      | [] => [[x]]
      | h :: t => (x :: h) :: t

/-- A field value in the record tree: a scalar string, a nested record
(Python dict), or an ordered sequence (Python list, which in the source can
hold both strings and dicts). -/
inductive Value where
  | str : List Char → Value
  | dict : List (List Char × Value) → Value
  | list : List Value → Value

/-- An insertion-ordered mapping from field names to values (a Python dict). -/
abbrev Record := List (List Char × Value)

/-- First-match association lookup (`fields[key]` / `key in fields`). -/
def lookupR : Record → List Char → Option Value
  | [], _ => none
  | (k, v) :: rest, key => if k = key then some v else lookupR rest key

/-- Python `fields[key] = v`: replace in place if the key exists (keeping its
insertion position, as Python dicts do), else append at the end. -/
def setKey : Record → List Char → Value → Record
  | [], key, v => [(key, v)]
  | (k, w) :: rest, key, v =>
    if k = key then (key, v) :: rest else (k, w) :: setKey rest key v

/-- The fatal errors (`raise ValueError(...)`) of the source, one constructor
per distinct message site. -/
inductive PError where
  | invalidLeadingMarker
  | missingOpenBracket
  | missingCloseBracket
  | unterminatedText
  | duplicateKey : List Char → PError
  | missingColon
  | attributeError
deriving DecidableEq

/-- The non-fatal diagnostics (`logging.warning(...)`) of the source. -/
inductive Warning where
  | duplicateKeyHdr : List Char → Warning
  | unknownKey : List Char → List Char → Warning
  | missingTop : List Char → Warning
deriving DecidableEq

/-- Outcome of a fuelled computation: normal return, raised error, or fuel
exhausted (the underlying loop would still be running). -/
inductive PResult (α : Type) where
  | ok : α → PResult α
  | err : PError → PResult α
  | out : PResult α

/-- State returned by both parsers: the mutated record, the not yet consumed
lines, and the accumulated warnings. -/
abbrev PSt := Record × List (List Char) × List Warning

/-- `field_is_array` from the source: the Array-Field Policy set. -/
def field_is_array (field : List Char) : Bool :=
  decide (field ∈ [sl "ITEMS", sl "FORMER-COMPANY", sl "DOCUMENT", sl "CLASS-CONTRACT",
    sl "FORMER-NAME", sl "FILER", sl "SERIES", sl "GROUP-MEMBERS", sl "FILED-FOR",
    sl "REPORTING-OWNER", sl "NEW-SERIES", sl "MERGER", sl "ITEM", sl "REFERENCES-429",
    sl "TARGET-DATA", sl "NEW-CLASSES-CONTRACTS", sl "SUBJECT-COMPANY", sl "RULE"])

/-- The inner `while True` loop of the `TEXT` branch of
`process_nested_fields` (source lines 127-138): accumulate raw lines until a
line starting with `</TEXT>`; end of input (or a falsy line) raises the
"Unexpected end of file while reading TEXT field" error. Returns the joined
content and the remaining lines. -/
def readTextRaw : List (List Char) → List (List Char) → Except PError (List Char × List (List Char))
  | [], _ => .error .unterminatedText
  | line :: rest, content =>
    if line = [] then .error .unterminatedText
    else if (sl "</TEXT>").isPrefixOf line then .ok (content.flatten, rest)
    else readTextRaw rest (content ++ [line])

/-- An entry of the `KEY_MAP` table: a plain rename string, or a pair of a
canonical name and a nested sub-table (a Python tuple). -/
inductive KMEntry where
  | plain : List Char → KMEntry
  | nested : List Char → List (List Char × KMEntry) → KMEntry

/-- The Key-Remap Table shape. -/
abbrev KeyMap := List (List Char × KMEntry)

/-- Association lookup in a `KeyMap` (`key in key_map` / `key_map[key]`). -/
def lookupKM : KeyMap → List Char → Option KMEntry
  | [], _ => none
  | (k, e) :: rest, key => if k = key then some e else lookupKM rest key

/-- `KEY_MAP` from the source, verbatim (the `ITEM INFORMATION` entry is
commented out in the source). -/
def KEY_MAP : KeyMap := [
  (sl "ACCESSION NUMBER", .plain (sl "ACCESSION-NUMBER")),
  (sl "CONFORMED SUBMISSION TYPE", .plain (sl "TYPE")),
  (sl "PUBLIC DOCUMENT COUNT", .plain (sl "PUBLIC-DOCUMENT-COUNT")),
  (sl "CONFORMED PERIOD OF REPORT", .plain (sl "PERIOD")),
  (sl "FILED AS OF DATE", .plain (sl "FILING-DATE")),
  (sl "DATE AS OF CHANGE", .plain (sl "DATE-OF-FILING-DATE-CHANGE")),
  (sl "FILER", .nested (sl "FILER") [
    (sl "COMPANY DATA", .nested (sl "COMPANY-DATA") [
      (sl "COMPANY CONFORMED NAME", .plain (sl "CONFORMED-NAME")),
      (sl "CENTRAL INDEX KEY", .plain (sl "CIK")),
      (sl "STANDARD INDUSTRIAL CLASSIFICATION", .plain (sl "ASSIGNED-SIC")),
      (sl "ORGANIZATION NAME", .plain (sl "ORGANIZATION-NAME")),
      (sl "IRS NUMBER", .plain (sl "IRS-NUMBER")),
      (sl "STATE OF INCORPORATION", .plain (sl "STATE-OF-INCORPORATION")),
      (sl "FISCAL YEAR END", .plain (sl "FISCAL-YEAR-END"))]),
    (sl "FILING VALUES", .nested (sl "FILING-VALUES") [
      (sl "FORM TYPE", .plain (sl "FORM-TYPE")),
      (sl "SEC ACT", .plain (sl "ACT")),
      (sl "SEC FILE NUMBER", .plain (sl "FILE-NUMBER")),
      (sl "FILM NUMBER", .plain (sl "FILM-NUMBER"))]),
    (sl "BUSINESS ADDRESS", .nested (sl "BUSINESS-ADDRESS") [
      (sl "STREET 1", .plain (sl "STREET1")),
      (sl "CITY", .plain (sl "CITY")),
      (sl "STATE", .plain (sl "STATE")),
      (sl "ZIP", .plain (sl "ZIP")),
      (sl "BUSINESS PHONE", .plain (sl "PHONE"))]),
    (sl "MAIL ADDRESS", .nested (sl "MAIL-ADDRESS") [
      (sl "STREET 1", .plain (sl "STREET1")),
      (sl "CITY", .plain (sl "CITY")),
      (sl "STATE", .plain (sl "STATE")),
      (sl "ZIP", .plain (sl "ZIP"))]),
    (sl "FORMER COMPANY", .nested (sl "FORMER-COMPANY") [
      (sl "FORMER CONFORMED NAME", .plain (sl "FORMER-CONFORMED-NAME")),
      (sl "DATE OF NAME CHANGE", .plain (sl "DATE-CHANGED"))])])]

/-- A frame of the header parser's `current_section_stack` above the bottom
one: the section's record under construction, its `KeyMap` scope, and the
information needed to mirror Python's by-reference attachment: the canonical
key under which the record was attached in its parent, and whether it was
appended to an array (`isArr`) or assigned directly. (The source also keeps
the original key for log messages only; that is dropped here.) -/
structure HFrame where
  r : Record
  scope : KeyMap
  pkey : List Char
  isArr : Bool

/-- The record of the active (top-of-stack) frame, `current_section_stack[-1][0]`. -/
def hdrActiveR (bottom : Record) (upper : List HFrame) : Record :=
  match upper with
  | [] => bottom
  | f :: _ => f.r

/-- The scope of the active frame, `current_section_stack[-1][1]`. -/
def hdrActiveScope (upper : List HFrame) : KeyMap :=
  match upper with
  | [] => KEY_MAP
  | f :: _ => f.scope

/-- Replace the active frame's record (Python mutates it in place). -/
def setActiveR (bottom : Record) (upper : List HFrame) (r : Record) : Record × List HFrame :=
  match upper with
  | [] => (r, [])
  | f :: t => (bottom, { f with r := r } :: t)

/-- Write a finished frame's record back into its parent record at the slot
it was attached to. In Python this is a no-op (the child dict is shared by
reference); in the pure embedding it replaces the placeholder stored at
attach time: the last element of the array for `isArr` frames, the value at
`pkey` otherwise. -/
def mergeInto (f : HFrame) (parent : Record) : Record :=
  if f.isArr then
    match lookupR parent f.pkey with
    | some (.list l) => setKey parent f.pkey (.list (l.dropLast ++ [.dict f.r]))
    | _ => parent
  else setKey parent f.pkey (.dict f.r)

/-- `current_section_stack.pop()`: merge the top frame into the frame below
it (or into the bottom record). -/
def popFrame (bottom : Record) (upper : List HFrame) : Record × List HFrame :=
  match upper with
  | [] => (bottom, [])
  | f :: t =>
    match t with
    | [] => (mergeInto f bottom, [])
    | g :: t' => (bottom, { g with r := mergeInto f g.r } :: t')

/-- Merge the frame `f` into the next frame of the stack (or into the bottom
record when the stack is exhausted), and continue downward. -/
def collapseFrom (f : HFrame) : List HFrame → Record → Record
  | [], b => mergeInto f b
  | g :: t, b => collapseFrom { g with r := mergeInto f g.r } t b

/-- Merge every remaining frame down into the bottom record (performed when
the parser stops while frames are still stacked; in Python the attached
dicts already reflect all mutations by aliasing). -/
def collapseAll : List HFrame → Record → Record
  | [], b => b
  | f :: t, b => collapseFrom f t b

/-- `processTxtHeader` from the source (lines 213-271), with the
`current_section_stack` split into the bottom record (the caller's dict,
whose frame is never popped) and the `upper` frames. One unit of fuel is
spent per iteration of the `while` loop. Note that on end of input the
source keeps iterating (`continue`) once no frame can be popped, so the
loop never finishes; that shows up here as `.out` for every fuel value. -/
def processTxtHeader : Nat → Record → List HFrame → List (List Char) → List Warning → PResult PSt
  | 0, _, _, _, _ => .out
  | fuel+1, bottom, upper, reader, warns =>
    match reader with
    | [] =>
      -- `not line` (readline returned ""): same branch as a blank line,
      -- but nothing is consumed.
      if (hdrActiveR bottom upper).isEmpty = false ∧ upper.isEmpty = false then
        processTxtHeader fuel (popFrame bottom upper).1 (popFrame bottom upper).2 [] warns
      else
        processTxtHeader fuel bottom upper [] warns
    | line :: rest =>
      if pyStrip line = [] then
        if (hdrActiveR bottom upper).isEmpty = false ∧ upper.isEmpty = false then
          processTxtHeader fuel (popFrame bottom upper).1 (popFrame bottom upper).2 rest warns
        else
          processTxtHeader fuel bottom upper rest warns
      else if (sl "</SEC-HEADER>").isPrefixOf line then
        .ok (collapseAll upper bottom, rest, warns)
      else if (sl "<ACCEPTANCE-DATETIME>").isPrefixOf line then
        processTxtHeader fuel bottom upper rest warns
      else
        match splitOnce ':' line with
        | [] =>
          -- `if len(parts) == 0: raise ValueError(...)`; dead in Python and
          -- here, since split-once never returns an empty list.
          .err .missingColon
        | p0 :: ps =>
          let key := pyStrip p0
          let value := match ps with | [] => ([] : List Char) | p1 :: _ => pyStrip p1
          match lookupKM (hdrActiveScope upper) key with
          | some (KMEntry.nested okey sub) =>
            if field_is_array okey then
              match lookupR (hdrActiveR bottom upper) okey with
              | none =>
                let p := setActiveR bottom upper
                  (setKey (hdrActiveR bottom upper) okey (.list [.dict []]))
                processTxtHeader fuel p.1 (⟨[], sub, okey, true⟩ :: p.2) rest warns
              | some (.list l) =>
                let p := setActiveR bottom upper
                  (setKey (hdrActiveR bottom upper) okey (.list (l ++ [.dict []])))
                processTxtHeader fuel p.1 (⟨[], sub, okey, true⟩ :: p.2) rest warns
              | some _ => .err .attributeError
            else
              let warns' := if (lookupR (hdrActiveR bottom upper) okey).isSome
                then warns ++ [.duplicateKeyHdr okey] else warns
              let p := setActiveR bottom upper
                (setKey (hdrActiveR bottom upper) okey (.dict []))
              processTxtHeader fuel p.1 (⟨[], sub, okey, false⟩ :: p.2) rest warns'
          | some (KMEntry.plain okey) =>
            if field_is_array okey then
              match lookupR (hdrActiveR bottom upper) okey with
              | none =>
                let p := setActiveR bottom upper
                  (setKey (hdrActiveR bottom upper) okey (.list [.str value]))
                processTxtHeader fuel p.1 p.2 rest warns
              | some (.list l) =>
                let p := setActiveR bottom upper
                  (setKey (hdrActiveR bottom upper) okey (.list (l ++ [.str value])))
                processTxtHeader fuel p.1 p.2 rest warns
              | some _ => .err .attributeError
            else
              let warns' := if (lookupR (hdrActiveR bottom upper) okey).isSome
                then warns ++ [.duplicateKeyHdr okey] else warns
              let p := setActiveR bottom upper
                (setKey (hdrActiveR bottom upper) okey (.str value))
              processTxtHeader fuel p.1 p.2 rest warns'
          | none =>
            let warns' := if key ≠ [] ∧ value ≠ [] ∧ key ≠ sl "ITEM INFORMATION"
              then warns ++ [.unknownKey key value] else warns
            processTxtHeader fuel bottom upper rest warns'

/-- `process_nested_fields` from the source (lines 103-163). One unit of
fuel is spent per iteration of the `while` loop and per recursive descent.
The by-reference attachment of a nested child dict before the recursive call
is rendered by attaching the finished child after the call returns; the
`AttributeError` Python would raise on `.append` against a non-list value is
checked at the same point in evaluation order as in the source. -/
def process_nested_fields : Nat → List Char → Record → List (List Char) → List Warning → PResult PSt
  | 0, _, _, _, _ => .out
  | fuel+1, field_name, fields, reader, warns =>
    match reader with
    | [] => .ok (fields, [], warns)
    | line :: rest =>
      if line = [] then .ok (fields, rest, warns)
      else if ((sl "</" ++ field_name ++ sl ">").isPrefixOf line
               || (sl "</SEC-DOCUMENT>").isPrefixOf line) = true then
        .ok (fields, rest, warns)
      else if (sl "<").isPrefixOf line = false then
        .err .missingOpenBracket
      else
        match splitOnce '>' line with
        | [] => .err .missingCloseBracket
        | [_] => .err .missingCloseBracket
        | p0 :: p1 :: _ =>
          let key := pyStrip (p0.drop 1)
          let value := pyStrip p1
          if key = sl "TEXT" then
            match readTextRaw rest [] with
            | .error e => .err e
            | .ok (content, rest') =>
              process_nested_fields fuel field_name (setKey fields key (.str content)) rest' warns
          else if key = sl "SEC-HEADER" then
            match processTxtHeader fuel fields [] rest warns with
            | .ok (fields', rest', warns') =>
              process_nested_fields fuel field_name fields' rest' warns'
            | .err e => .err e
            | .out => .out
          else if value = [] ∧ key ∉ [sl "ORGANIZATION-NAME", sl "CONFIRMING-COPY",
              sl "PRIVATE-TO-PUBLIC", sl "CORRECTION", sl "DELETION"] then
            if field_is_array key then
              match lookupR fields key with
              | none =>
                match process_nested_fields fuel key [] rest warns with
                | .ok (child, rest', warns') =>
                  process_nested_fields fuel field_name
                    (setKey fields key (.list [.dict child])) rest' warns'
                | .err e => .err e
                | .out => .out
              | some (.list l) =>
                match process_nested_fields fuel key [] rest warns with
                | .ok (child, rest', warns') =>
                  process_nested_fields fuel field_name
                    (setKey fields key (.list (l ++ [.dict child]))) rest' warns'
                | .err e => .err e
                | .out => .out
              | some _ => .err .attributeError
            else
              if (lookupR fields key).isSome then .err (.duplicateKey key)
              else
                match process_nested_fields fuel key [] rest warns with
                | .ok (child, rest', warns') =>
                  process_nested_fields fuel field_name
                    (setKey fields key (.dict child)) rest' warns'
                | .err e => .err e
                | .out => .out
          else
            if field_is_array key then
              match lookupR fields key with
              | none =>
                process_nested_fields fuel field_name
                  (setKey fields key (.list [.str value])) rest warns
              | some (.list l) =>
                process_nested_fields fuel field_name
                  (setKey fields key (.list (l ++ [.str value]))) rest warns
              | some _ => .err .attributeError
            else
              if (lookupR fields key).isSome then .err (.duplicateKey key)
              else
                process_nested_fields fuel field_name
                  (setKey fields key (.str value)) rest warns

/-- Body of `deserialize` after the leading-marker check (source lines
87-97): drive `process_nested_fields` over the remaining lines, then emit a
warning for each missing expected top-level field. -/
def deserializeBody (fuel : Nat) (rest : List (List Char)) : PResult (Record × List Warning) :=
  match process_nested_fields fuel (sl "SUBMISSION") [] rest [] with
  | .ok (fields, _, warns) =>
    .ok (fields,
      warns
        ++ (if (lookupR fields (sl "DOCUMENT")).isSome then []
            else [Warning.missingTop (sl "DOCUMENT")])
        ++ (if (lookupR fields (sl "FILER")).isSome then []
            else [Warning.missingTop (sl "FILER")]))
  | .err e => .err e
  | .out => .out

/-- `deserialize` from the source (lines 70-100): check that the first line
starts with `<SUBMISSION>` or `<SEC-DOCUMENT>` (an empty input gives a first
line `""`, which fails the check), then parse the rest. -/
def deserialize (fuel : Nat) (reader : List (List Char)) : PResult (Record × List Warning) :=
  match reader with
  | [] => .err .invalidLeadingMarker
  | first :: rest =>
    if ((sl "<SUBMISSION>").isPrefixOf first || (sl "<SEC-DOCUMENT>").isPrefixOf first) = true then
      deserializeBody fuel rest
    else .err .invalidLeadingMarker


/-! ### Basic lemmas about the embedded primitives -/

theorem lookupR_setKey_self (f : Record) (k : List Char) (v : Value) :
    lookupR (setKey f k v) k = some v := by
  induction f with
  | nil => simp [setKey, lookupR]
  | cons p rest ih =>
    obtain ⟨k', v'⟩ := p
    by_cases h : k' = k
    · simp [setKey, lookupR, h]
    · simp [setKey, lookupR, h, ih]

theorem lookupR_setKey_ne (f : Record) (k k' : List Char) (v : Value) (h : k' ≠ k) :
    lookupR (setKey f k v) k' = lookupR f k' := by
  induction f with
  | nil => simp [setKey, lookupR, Ne.symm h]
  | cons p rest ih =>
    obtain ⟨k0, v0⟩ := p
    by_cases h0 : k0 = k
    · subst h0
      simp [setKey, lookupR, Ne.symm h]
    · simp [setKey, lookupR, h0, ih]

theorem isPrefixOf_append_self (l t : List Char) : l.isPrefixOf (l ++ t) = true := by
  induction l with
  | nil => simp [List.isPrefixOf]
  | cons c cs ih => simp [List.isPrefixOf, ih]

theorem isPrefixOf_slash_false (xs ys : List Char) (c : Char) (h : c ≠ '/') :
    (('<' :: '/' :: xs).isPrefixOf ('<' :: c :: ys)) = false := by
  have hc : ('/' == c) = false := beq_eq_false_iff_ne.mpr (Ne.symm h)
  simp [List.isPrefixOf, hc]

theorem splitOnce_ne_nil (c : Char) (s : List Char) : splitOnce c s ≠ [] := by
  cases s with
  | nil => simp [splitOnce]
  | cons x xs =>
    by_cases h : x = c
    · simp [splitOnce, h]
    · simp only [splitOnce, if_neg h]
      cases splitOnce c xs <;> simp

theorem splitOnce_first (c : Char) (a w : List Char) (h : c ∉ a) :
    splitOnce c (a ++ c :: w) = [a, w] := by
  induction a with
  | nil => simp [splitOnce]
  | cons x xs ih =>
    have hx : x ≠ c := fun hc => h (by simp [hc])
    have hxs : c ∉ xs := fun hc => h (by simp [hc])
    simp [splitOnce, hx, ih hxs]

theorem splitOnce_no_sep (c : Char) (s : List Char) (h : c ∉ s) :
    splitOnce c s = [s] := by
  induction s with
  | nil => rfl
  | cons x xs ih =>
    have hx : x ≠ c := fun hc => h (by simp [hc])
    have hxs : c ∉ xs := fun hc => h (by simp [hc])
    simp [splitOnce, hx, ih hxs]

theorem readTextRaw_run (ls : List (List Char)) :
    ∀ (acc : List (List Char)) (close : List Char) (rest : List (List Char)),
    (∀ l ∈ ls, l ≠ [] ∧ (sl "</TEXT>").isPrefixOf l = false) →
    (sl "</TEXT>").isPrefixOf close = true →
    readTextRaw (ls ++ close :: rest) acc = .ok ((acc ++ ls).flatten, rest) := by
  induction ls with
  | nil =>
    intro acc close rest _ hc
    have hne : close ≠ [] := by
      intro h
      rw [h] at hc
      have : (sl "</TEXT>").isPrefixOf ([] : List Char) = false := rfl
      rw [this] at hc
      exact Bool.false_ne_true hc
    simp [readTextRaw, hne, hc]
  | cons l ls ih =>
    intro acc close rest hl hc
    obtain ⟨hne, hnp⟩ := hl l (by simp)
    have step := ih (acc ++ [l]) close rest (fun x hx => hl x (by simp [hx])) hc
    simp only [List.cons_append, readTextRaw, if_neg hne, hnp, Bool.false_eq_true, if_false]
    simpa [List.append_eq, List.append_assoc, List.singleton_append] using step

theorem readTextRaw_noclose (ls : List (List Char)) :
    ∀ (acc : List (List Char)),
    (∀ l ∈ ls, l ≠ [] ∧ (sl "</TEXT>").isPrefixOf l = false) →
    readTextRaw ls acc = .error .unterminatedText := by
  induction ls with
  | nil => intro acc _; rfl
  | cons l ls ih =>
    intro acc hl
    obtain ⟨hne, hnp⟩ := hl l (by simp)
    simp only [readTextRaw, if_neg hne, hnp, Bool.false_eq_true, if_false]
    exact ih _ (fun x hx => hl x (by simp [hx]))

theorem readTextRaw_err (ls : List (List Char)) :
    ∀ (acc : List (List Char)) (e : PError),
    readTextRaw ls acc = .error e → e = .unterminatedText := by
  induction ls with
  | nil =>
    intro acc e h
    have h' : (Except.error PError.unterminatedText :
        Except PError (List Char × List (List Char))) = .error e := h
    injection h' with h''
    exact h''.symm
  | cons l ls ih =>
    intro acc e h
    by_cases hne : l = []
    · rw [readTextRaw, if_pos hne] at h
      injection h with h'
      exact h'.symm
    · by_cases hp : (sl "</TEXT>").isPrefixOf l = true
      · rw [readTextRaw, if_neg hne, if_pos hp] at h
        exact absurd h (by simp)
      · rw [readTextRaw, if_neg hne, if_neg hp] at h
        exact ih _ _ h

/-! ### Step lemmas for the Tag-Block Parser -/

/-- Side conditions under which a tag name parses cleanly out of a line
of the form `<k>w`: no `>` inside the name, the name is its own strip, it is
nonempty and does not begin with `/`. -/
def goodTagKey (k : List Char) : Prop :=
  ('>' ∉ k) ∧ pyStrip k = k ∧ k ≠ [] ∧ k.head? ≠ some '/'

theorem pnf_step_close (fuel : Nat) (fname : List Char) (fields : Record)
    (line : List Char) (rest : List (List Char)) (warns : List Warning)
    (hne : line ≠ [])
    (h : ((sl "</" ++ fname ++ sl ">").isPrefixOf line
          || (sl "</SEC-DOCUMENT>").isPrefixOf line) = true) :
    process_nested_fields (fuel+1) fname fields (line :: rest) warns
      = .ok (fields, rest, warns) := by
  simp only [process_nested_fields]
  rw [if_neg hne, if_pos h]

theorem pnf_step_scalar_array_none (fuel : Nat) (fname k w : List Char) (fields : Record)
    (rest : List (List Char)) (warns : List Warning)
    (hg : goodTagKey k) (hka : field_is_array k = true)
    (hT : k ≠ sl "TEXT") (hS : k ≠ sl "SEC-HEADER")
    (hv : pyStrip w ≠ [])
    (h0 : lookupR fields k = none) :
    process_nested_fields (fuel+1) fname fields (('<' :: (k ++ '>' :: w)) :: rest) warns
      = process_nested_fields fuel fname (setKey fields k (.list [.str (pyStrip w)])) rest warns := by
  obtain ⟨h1, h2, h3, h4⟩ := hg
  obtain ⟨c, cs, rfl⟩ : ∃ c cs, k = c :: cs := by
    cases k with
    | nil => exact absurd rfl h3
    | cons c cs => exact ⟨c, cs, rfl⟩
  have hc : c ≠ '/' := by
    intro hcc
    exact h4 (by simp [hcc])
  have hclose1 : (sl "</" ++ fname ++ sl ">").isPrefixOf ('<' :: (c :: cs ++ '>' :: w)) = false := by
    have e : sl "</" ++ fname ++ sl ">" = '<' :: '/' :: (fname ++ sl ">") := rfl
    rw [e]
    exact isPrefixOf_slash_false _ _ c hc
  have hclose2 : (sl "</SEC-DOCUMENT>").isPrefixOf ('<' :: (c :: cs ++ '>' :: w)) = false := by
    have e : sl "</SEC-DOCUMENT>" = '<' :: '/' :: sl "SEC-DOCUMENT>" := rfl
    rw [e]
    exact isPrefixOf_slash_false _ _ c hc
  have hopen : (sl "<").isPrefixOf ('<' :: (c :: cs ++ '>' :: w)) = true := by
    simp [sl, List.isPrefixOf]
  have hsplit : splitOnce '>' ('<' :: (c :: cs ++ '>' :: w)) = ['<' :: c :: cs, w] := by
    have e : '<' :: (c :: cs ++ '>' :: w) = ('<' :: c :: cs) ++ '>' :: w := rfl
    rw [e]
    refine splitOnce_first '>' _ _ ?_
    intro hmem
    rcases List.mem_cons.mp hmem with h | h
    · exact absurd h.symm (by decide)
    · exact h1 h
  simp only [process_nested_fields]
  rw [if_neg (by simp : ¬('<' :: (c :: cs ++ '>' :: w) = ([] : List Char)))]
  rw [if_neg (by rw [hclose1, hclose2]; simp)]
  rw [if_neg (by rw [hopen]; simp)]
  simp only [hsplit, List.drop_one, List.tail_cons, h2]
  rw [if_neg hT, if_neg hS]
  rw [if_neg (fun hcon => hv hcon.1)]
  rw [if_pos hka]
  simp only [h0]

theorem pnf_step_scalar_array_some (fuel : Nat) (fname k w : List Char) (fields : Record)
    (rest : List (List Char)) (warns : List Warning) (l : List Value)
    (hg : goodTagKey k) (hka : field_is_array k = true)
    (hT : k ≠ sl "TEXT") (hS : k ≠ sl "SEC-HEADER")
    (hv : pyStrip w ≠ [])
    (h0 : lookupR fields k = some (.list l)) :
    process_nested_fields (fuel+1) fname fields (('<' :: (k ++ '>' :: w)) :: rest) warns
      = process_nested_fields fuel fname (setKey fields k (.list (l ++ [.str (pyStrip w)]))) rest warns := by
  obtain ⟨h1, h2, h3, h4⟩ := hg
  obtain ⟨c, cs, rfl⟩ : ∃ c cs, k = c :: cs := by
    cases k with
    | nil => exact absurd rfl h3
    | cons c cs => exact ⟨c, cs, rfl⟩
  have hc : c ≠ '/' := by
    intro hcc
    exact h4 (by simp [hcc])
  have hclose1 : (sl "</" ++ fname ++ sl ">").isPrefixOf ('<' :: (c :: cs ++ '>' :: w)) = false := by
    have e : sl "</" ++ fname ++ sl ">" = '<' :: '/' :: (fname ++ sl ">") := rfl
    rw [e]
    exact isPrefixOf_slash_false _ _ c hc
  have hclose2 : (sl "</SEC-DOCUMENT>").isPrefixOf ('<' :: (c :: cs ++ '>' :: w)) = false := by
    have e : sl "</SEC-DOCUMENT>" = '<' :: '/' :: sl "SEC-DOCUMENT>" := rfl
    rw [e]
    exact isPrefixOf_slash_false _ _ c hc
  have hopen : (sl "<").isPrefixOf ('<' :: (c :: cs ++ '>' :: w)) = true := by
    simp [sl, List.isPrefixOf]
  have hsplit : splitOnce '>' ('<' :: (c :: cs ++ '>' :: w)) = ['<' :: c :: cs, w] := by
    have e : '<' :: (c :: cs ++ '>' :: w) = ('<' :: c :: cs) ++ '>' :: w := rfl
    rw [e]
    refine splitOnce_first '>' _ _ ?_
    intro hmem
    rcases List.mem_cons.mp hmem with h | h
    · exact absurd h.symm (by decide)
    · exact h1 h
  simp only [process_nested_fields]
  rw [if_neg (by simp : ¬('<' :: (c :: cs ++ '>' :: w) = ([] : List Char)))]
  rw [if_neg (by rw [hclose1, hclose2]; simp)]
  rw [if_neg (by rw [hopen]; simp)]
  simp only [hsplit, List.drop_one, List.tail_cons, h2]
  rw [if_neg hT, if_neg hS]
  rw [if_neg (fun hcon => hv hcon.1)]
  rw [if_pos hka]
  simp only [h0]

theorem pnf_step_dup (fuel : Nat) (fname k w : List Char) (fields : Record)
    (rest : List (List Char)) (warns : List Warning)
    (hg : goodTagKey k) (hka : field_is_array k = false)
    (hT : k ≠ sl "TEXT") (hS : k ≠ sl "SEC-HEADER")
    (h0 : (lookupR fields k).isSome = true) :
    process_nested_fields (fuel+1) fname fields (('<' :: (k ++ '>' :: w)) :: rest) warns
      = .err (.duplicateKey k) := by
  obtain ⟨h1, h2, h3, h4⟩ := hg
  obtain ⟨c, cs, rfl⟩ : ∃ c cs, k = c :: cs := by
    cases k with
    | nil => exact absurd rfl h3
    | cons c cs => exact ⟨c, cs, rfl⟩
  have hc : c ≠ '/' := by
    intro hcc
    exact h4 (by simp [hcc])
  have hclose1 : (sl "</" ++ fname ++ sl ">").isPrefixOf ('<' :: (c :: cs ++ '>' :: w)) = false := by
    have e : sl "</" ++ fname ++ sl ">" = '<' :: '/' :: (fname ++ sl ">") := rfl
    rw [e]
    exact isPrefixOf_slash_false _ _ c hc
  have hclose2 : (sl "</SEC-DOCUMENT>").isPrefixOf ('<' :: (c :: cs ++ '>' :: w)) = false := by
    have e : sl "</SEC-DOCUMENT>" = '<' :: '/' :: sl "SEC-DOCUMENT>" := rfl
    rw [e]
    exact isPrefixOf_slash_false _ _ c hc
  have hopen : (sl "<").isPrefixOf ('<' :: (c :: cs ++ '>' :: w)) = true := by
    simp [sl, List.isPrefixOf]
  have hsplit : splitOnce '>' ('<' :: (c :: cs ++ '>' :: w)) = ['<' :: c :: cs, w] := by
    have e : '<' :: (c :: cs ++ '>' :: w) = ('<' :: c :: cs) ++ '>' :: w := rfl
    rw [e]
    refine splitOnce_first '>' _ _ ?_
    intro hmem
    rcases List.mem_cons.mp hmem with h | h
    · exact absurd h.symm (by decide)
    · exact h1 h
  simp only [process_nested_fields]
  rw [if_neg (by simp : ¬('<' :: (c :: cs ++ '>' :: w) = ([] : List Char)))]
  rw [if_neg (by rw [hclose1, hclose2]; simp)]
  rw [if_neg (by rw [hopen]; simp)]
  simp only [hsplit, List.drop_one, List.tail_cons, h2]
  rw [if_neg hT, if_neg hS]
  by_cases hA : pyStrip w = [] ∧ (c :: cs) ∉ [sl "ORGANIZATION-NAME", sl "CONFIRMING-COPY",
    sl "PRIVATE-TO-PUBLIC", sl "CORRECTION", sl "DELETION"]
  · rw [if_pos hA, if_neg (by rw [hka]; simp), if_pos h0]
  · rw [if_neg hA, if_neg (by rw [hka]; simp), if_pos h0]

theorem pnf_step_text (fuel : Nat) (fname : List Char) (fields : Record)
    (rest : List (List Char)) (warns : List Warning) :
    process_nested_fields (fuel+1) fname fields (sl "<TEXT>\n" :: rest) warns
      = match readTextRaw rest [] with
        | .error e => .err e
        | .ok (content, rest') =>
          process_nested_fields fuel fname (setKey fields (sl "TEXT") (.str content)) rest' warns := by
  have hclose1 : (sl "</" ++ fname ++ sl ">").isPrefixOf (sl "<TEXT>\n") = false := by
    have e1 : sl "</" ++ fname ++ sl ">" = '<' :: '/' :: (fname ++ sl ">") := rfl
    have e2 : sl "<TEXT>\n" = '<' :: 'T' :: sl "EXT>\n" := rfl
    rw [e1, e2]
    exact isPrefixOf_slash_false _ _ 'T' (by decide)
  have hclose2 : (sl "</SEC-DOCUMENT>").isPrefixOf (sl "<TEXT>\n") = false := by decide
  have hopen : (sl "<").isPrefixOf (sl "<TEXT>\n") = true := by decide
  have hsplit : splitOnce '>' (sl "<TEXT>\n") = [sl "<TEXT", sl "\n"] := by decide
  have hkey : pyStrip (List.drop 1 (sl "<TEXT")) = sl "TEXT" := by decide
  simp only [process_nested_fields]
  rw [if_neg (by decide : ¬(sl "<TEXT>\n" = ([] : List Char)))]
  rw [if_neg (by rw [hclose1, hclose2]; simp)]
  rw [if_neg (by rw [hopen]; simp)]
  simp only [hsplit, hkey]
  rw [if_pos trivial]

/-- Every key of the Array-Field Policy set parses cleanly as a tag name, is
neither of the specially dispatched keys, and is not in the empty-value
exemption set. -/
theorem array_key_good (k : List Char) (hk : field_is_array k = true) :
    goodTagKey k ∧ k ≠ sl "TEXT" ∧ k ≠ sl "SEC-HEADER"
    ∧ k ∉ [sl "ORGANIZATION-NAME", sl "CONFIRMING-COPY", sl "PRIVATE-TO-PUBLIC",
        sl "CORRECTION", sl "DELETION"] := by
  have hmem := of_decide_eq_true hk
  fin_cases hmem <;>
    exact ⟨⟨by decide, by decide, by decide, by decide⟩, by decide, by decide, by decide⟩

/-- Processing a run of scalar lines `<k>v` for an array-policy key `k`
appends the stripped values, in order, to the existing sequence under `k`. -/
theorem pnf_array_accum (k : List Char) (hg : goodTagKey k) (hka : field_is_array k = true)
    (hT : k ≠ sl "TEXT") (hS : k ≠ sl "SEC-HEADER") :
    ∀ (vs : List (List Char)) (fuel : Nat) (fname : List Char) (fields : Record)
      (rest : List (List Char)) (warns : List Warning) (acc : List Value),
    (∀ v ∈ vs, pyStrip (v ++ ['\n']) = v ∧ v ≠ []) →
    lookupR fields k = some (.list acc) →
    ∃ fields',
      process_nested_fields (vs.length + fuel + 1) fname fields
        (vs.map (fun v => '<' :: (k ++ '>' :: (v ++ ['\n']))) ++ rest) warns
      = process_nested_fields (fuel + 1) fname fields' rest warns
      ∧ lookupR fields' k = some (.list (acc ++ vs.map Value.str)) := by
  intro vs
  induction vs with
  | nil =>
    intro fuel fname fields rest warns acc _ hacc
    exact ⟨fields, by simp, by simpa using hacc⟩
  | cons v vs ih =>
    intro fuel fname fields rest warns acc hv hacc
    obtain ⟨hstrip, hne⟩ := hv v (by simp)
    have hvne : pyStrip (v ++ ['\n']) ≠ [] := by rw [hstrip]; exact hne
    have efuel : (v :: vs).length + fuel + 1 = (vs.length + fuel + 1) + 1 := by
      simp [List.length_cons]
      omega
    have step := pnf_step_scalar_array_some (vs.length + fuel + 1) fname k (v ++ ['\n'])
      fields (vs.map (fun v => '<' :: (k ++ '>' :: (v ++ ['\n']))) ++ rest) warns acc
      hg hka hT hS hvne hacc
    rw [hstrip] at step
    have hacc1 : lookupR (setKey fields k (.list (acc ++ [Value.str v]))) k
        = some (.list (acc ++ [Value.str v])) := lookupR_setKey_self _ _ _
    obtain ⟨fields', heq, hlook⟩ := ih fuel fname
      (setKey fields k (.list (acc ++ [Value.str v]))) rest warns (acc ++ [Value.str v])
      (fun x hx => hv x (by simp [hx])) hacc1
    refine ⟨fields', ?_, ?_⟩
    · rw [efuel]
      rw [List.map_cons, List.cons_append]
      rw [step]
      rw [show vs.length + fuel + 1 = vs.length + (fuel + 1) by omega] at heq ⊢
      rw [heq]
    · rw [hlook]
      simp [List.append_assoc]

/-- The standard close line `</fname>` (with trailing newline) ends the
current block, returning the fields as they stand. -/
theorem pnf_step_close_std (fuel : Nat) (fname : List Char) (fields : Record)
    (rest : List (List Char)) (warns : List Warning) :
    process_nested_fields (fuel+1) fname fields
      (('<' :: '/' :: (fname ++ ['>', '\n'])) :: rest) warns
      = .ok (fields, rest, warns) := by
  apply pnf_step_close
  · simp
  · have e1 : sl "</" ++ fname ++ sl ">" = '<' :: '/' :: (fname ++ ['>']) := by
      simp [sl]
    have e2 : fname ++ ['>', '\n'] = (fname ++ ['>']) ++ ['\n'] := by simp
    rw [e1, e2]
    simp [List.isPrefixOf, isPrefixOf_append_self]

theorem pnf_step_nested_array_none (fuel : Nat) (fname k w : List Char) (fields : Record)
    (rest rest' : List (List Char)) (warns warns' : List Warning) (child : Record)
    (hg : goodTagKey k) (hka : field_is_array k = true)
    (hT : k ≠ sl "TEXT") (hS : k ≠ sl "SEC-HEADER")
    (hE : k ∉ [sl "ORGANIZATION-NAME", sl "CONFIRMING-COPY", sl "PRIVATE-TO-PUBLIC",
      sl "CORRECTION", sl "DELETION"])
    (hv : pyStrip w = [])
    (h0 : lookupR fields k = none)
    (hrec : process_nested_fields fuel k [] rest warns = .ok (child, rest', warns')) :
    process_nested_fields (fuel+1) fname fields (('<' :: (k ++ '>' :: w)) :: rest) warns
      = process_nested_fields fuel fname (setKey fields k (.list [.dict child])) rest' warns' := by
  obtain ⟨h1, h2, h3, h4⟩ := hg
  obtain ⟨c, cs, rfl⟩ : ∃ c cs, k = c :: cs := by
    cases k with
    | nil => exact absurd rfl h3
    | cons c cs => exact ⟨c, cs, rfl⟩
  have hc : c ≠ '/' := by
    intro hcc
    exact h4 (by simp [hcc])
  have hclose1 : (sl "</" ++ fname ++ sl ">").isPrefixOf ('<' :: (c :: cs ++ '>' :: w)) = false := by
    have e : sl "</" ++ fname ++ sl ">" = '<' :: '/' :: (fname ++ sl ">") := rfl
    rw [e]
    exact isPrefixOf_slash_false _ _ c hc
  have hclose2 : (sl "</SEC-DOCUMENT>").isPrefixOf ('<' :: (c :: cs ++ '>' :: w)) = false := by
    have e : sl "</SEC-DOCUMENT>" = '<' :: '/' :: sl "SEC-DOCUMENT>" := rfl
    rw [e]
    exact isPrefixOf_slash_false _ _ c hc
  have hopen : (sl "<").isPrefixOf ('<' :: (c :: cs ++ '>' :: w)) = true := by
    simp [sl, List.isPrefixOf]
  have hsplit : splitOnce '>' ('<' :: (c :: cs ++ '>' :: w)) = ['<' :: c :: cs, w] := by
    have e : '<' :: (c :: cs ++ '>' :: w) = ('<' :: c :: cs) ++ '>' :: w := rfl
    rw [e]
    refine splitOnce_first '>' _ _ ?_
    intro hmem
    rcases List.mem_cons.mp hmem with h | h
    · exact absurd h.symm (by decide)
    · exact h1 h
  simp only [process_nested_fields]
  rw [if_neg (by simp : ¬('<' :: (c :: cs ++ '>' :: w) = ([] : List Char)))]
  rw [if_neg (by rw [hclose1, hclose2]; simp)]
  rw [if_neg (by rw [hopen]; simp)]
  simp only [hsplit, List.drop_one, List.tail_cons, h2]
  rw [if_neg hT, if_neg hS]
  rw [if_pos ⟨hv, hE⟩]
  rw [if_pos hka]
  simp only [h0, hrec]

theorem pnf_step_nested_array_some (fuel : Nat) (fname k w : List Char) (fields : Record)
    (rest rest' : List (List Char)) (warns warns' : List Warning) (child : Record)
    (l : List Value)
    (hg : goodTagKey k) (hka : field_is_array k = true)
    (hT : k ≠ sl "TEXT") (hS : k ≠ sl "SEC-HEADER")
    (hE : k ∉ [sl "ORGANIZATION-NAME", sl "CONFIRMING-COPY", sl "PRIVATE-TO-PUBLIC",
      sl "CORRECTION", sl "DELETION"])
    (hv : pyStrip w = [])
    (h0 : lookupR fields k = some (.list l))
    (hrec : process_nested_fields fuel k [] rest warns = .ok (child, rest', warns')) :
    process_nested_fields (fuel+1) fname fields (('<' :: (k ++ '>' :: w)) :: rest) warns
      = process_nested_fields fuel fname
          (setKey fields k (.list (l ++ [.dict child]))) rest' warns' := by
  obtain ⟨h1, h2, h3, h4⟩ := hg
  obtain ⟨c, cs, rfl⟩ : ∃ c cs, k = c :: cs := by
    cases k with
    | nil => exact absurd rfl h3
    | cons c cs => exact ⟨c, cs, rfl⟩
  have hc : c ≠ '/' := by
    intro hcc
    exact h4 (by simp [hcc])
  have hclose1 : (sl "</" ++ fname ++ sl ">").isPrefixOf ('<' :: (c :: cs ++ '>' :: w)) = false := by
    have e : sl "</" ++ fname ++ sl ">" = '<' :: '/' :: (fname ++ sl ">") := rfl
    rw [e]
    exact isPrefixOf_slash_false _ _ c hc
  have hclose2 : (sl "</SEC-DOCUMENT>").isPrefixOf ('<' :: (c :: cs ++ '>' :: w)) = false := by
    have e : sl "</SEC-DOCUMENT>" = '<' :: '/' :: sl "SEC-DOCUMENT>" := rfl
    rw [e]
    exact isPrefixOf_slash_false _ _ c hc
  have hopen : (sl "<").isPrefixOf ('<' :: (c :: cs ++ '>' :: w)) = true := by
    simp [sl, List.isPrefixOf]
  have hsplit : splitOnce '>' ('<' :: (c :: cs ++ '>' :: w)) = ['<' :: c :: cs, w] := by
    have e : '<' :: (c :: cs ++ '>' :: w) = ('<' :: c :: cs) ++ '>' :: w := rfl
    rw [e]
    refine splitOnce_first '>' _ _ ?_
    intro hmem
    rcases List.mem_cons.mp hmem with h | h
    · exact absurd h.symm (by decide)
    · exact h1 h
  simp only [process_nested_fields]
  rw [if_neg (by simp : ¬('<' :: (c :: cs ++ '>' :: w) = ([] : List Char)))]
  rw [if_neg (by rw [hclose1, hclose2]; simp)]
  rw [if_neg (by rw [hopen]; simp)]
  simp only [hsplit, List.drop_one, List.tail_cons, h2]
  rw [if_neg hT, if_neg hS]
  rw [if_pos ⟨hv, hE⟩]
  rw [if_pos hka]
  simp only [h0, hrec]

/-- Describes one line group at a single nesting level, used to state the
n-occurrence property of the Array-Field Policy: a scalar occurrence `<k>v`
of the key under scrutiny, a nested-block occurrence `<k>` immediately
closed by `</k>`, or a scalar occurrence `<k'>v` of some other array key
interleaved at the same level. -/
inductive ArrOcc where
  | scalarK : List Char → ArrOcc
  | nestedK : ArrOcc
  | otherK : List Char → List Char → ArrOcc
deriving DecidableEq

/-- The input lines contributed by one occurrence descriptor. -/
def occLines (k : List Char) : ArrOcc → List (List Char)
  | .scalarK v => ['<' :: (k ++ '>' :: (v ++ ['\n']))]
  | .nestedK => ['<' :: (k ++ '>' :: ['\n']), '<' :: '/' :: (k ++ ['>', '\n'])]
  | .otherK k' v => ['<' :: (k' ++ '>' :: (v ++ ['\n']))]

/-- The element an occurrence of the key `k` contributes to the sequence
under `k` (`none` for occurrences of other keys). -/
def occVal : ArrOcc → Option Value
  | .scalarK v => some (.str v)
  | .nestedK => some (.dict [])
  | .otherK _ _ => none

/-- Side conditions for an occurrence descriptor to parse as intended. -/
def occOk (k : List Char) : ArrOcc → Prop
  | .scalarK v => pyStrip (v ++ ['\n']) = v ∧ v ≠ []
  | .nestedK => True
  | .otherK k' v => field_is_array k' = true ∧ k' ≠ k
      ∧ pyStrip (v ++ ['\n']) = v ∧ v ≠ []

instance (k : List Char) : (i : ArrOcc) → Decidable (occOk k i)
  | .scalarK v => inferInstanceAs (Decidable (pyStrip (v ++ ['\n']) = v ∧ v ≠ []))
  | .nestedK => inferInstanceAs (Decidable True)
  | .otherK k' v => inferInstanceAs (Decidable (field_is_array k' = true ∧ k' ≠ k
      ∧ pyStrip (v ++ ['\n']) = v ∧ v ≠ []))

theorem length_filterMap_eq_countP {α β : Type} (f : α → Option β) :
    ∀ l : List α, (l.filterMap f).length = l.countP (fun a => (f a).isSome) := by
  intro l
  induction l with
  | nil => rfl
  | cons a l ih =>
    cases hf : f a with
    | none => simp [List.filterMap_cons, hf, List.countP_cons, ih]
    | some b => simp [List.filterMap_cons, hf, List.countP_cons, ih]

/-- Processing a run of occurrences at one nesting level — scalar and
empty-nested-block occurrences of the array key `k`, interleaved with scalar
occurrences of other array keys — appends exactly the `k`-occurrences'
elements, in encounter order, to the sequence under `k` (creating it at the
first occurrence), and leaves the parser at the continuation state. -/
theorem pnf_array_mixed_accum (k : List Char) (hg : goodTagKey k)
    (hka : field_is_array k = true)
    (hT : k ≠ sl "TEXT") (hS : k ≠ sl "SEC-HEADER")
    (hE : k ∉ [sl "ORGANIZATION-NAME", sl "CONFIRMING-COPY", sl "PRIVATE-TO-PUBLIC",
      sl "CORRECTION", sl "DELETION"]) :
    ∀ (items : List ArrOcc) (fuel : Nat) (fname : List Char) (fields : Record)
      (rest : List (List Char)) (warns : List Warning) (acc : List Value),
    (∀ i ∈ items, occOk k i) →
    ((lookupR fields k = none ∧ acc = []) ∨ lookupR fields k = some (.list acc)) →
    (∀ k' v, ArrOcc.otherK k' v ∈ items →
      lookupR fields k' = none ∨ ∃ l, lookupR fields k' = some (.list l)) →
    ∃ fields',
      process_nested_fields (items.length + fuel + 1) fname fields
        ((items.map (occLines k)).flatten ++ rest) warns
      = process_nested_fields (fuel + 1) fname fields' rest warns
      ∧ ((lookupR fields' k = none ∧ acc ++ items.filterMap occVal = [])
         ∨ lookupR fields' k = some (.list (acc ++ items.filterMap occVal))) := by
  intro items
  induction items with
  | nil =>
    intro fuel fname fields rest warns acc _ hk _
    refine ⟨fields, by simp, ?_⟩
    simpa using hk
  | cons i items ih =>
    intro fuel fname fields rest warns acc hocc hk hoth
    have hocc_i := hocc i (by simp)
    have hocc' : ∀ j ∈ items, occOk k j := fun j hj => hocc j (by simp [hj])
    have efuel : (i :: items).length + fuel + 1 = (items.length + fuel + 1) + 1 := by
      simp [List.length_cons]
      omega
    rw [efuel]
    cases i with
    | scalarK v =>
      obtain ⟨hstrip, hvne⟩ := hocc_i
      have hvne' : pyStrip (v ++ ['\n']) ≠ [] := by rw [hstrip]; exact hvne
      simp only [List.map_cons, List.flatten_cons, occLines, List.append_assoc,
        List.cons_append, List.nil_append]
      have hset : ∀ rest0,
          process_nested_fields ((items.length + fuel + 1) + 1) fname fields
            (('<' :: (k ++ '>' :: (v ++ ['\n']))) :: rest0) warns
          = process_nested_fields (items.length + fuel + 1) fname
              (setKey fields k (.list (acc ++ [.str v]))) rest0 warns := by
        intro rest0
        rcases hk with ⟨h0, rfl⟩ | h0
        · have := pnf_step_scalar_array_none (items.length + fuel + 1) fname k (v ++ ['\n'])
            fields rest0 warns hg hka hT hS hvne' h0
          rw [hstrip] at this
          simpa using this
        · have := pnf_step_scalar_array_some (items.length + fuel + 1) fname k (v ++ ['\n'])
            fields rest0 warns acc hg hka hT hS hvne' h0
          rw [hstrip] at this
          exact this
      rw [hset]
      have hk1 : (lookupR (setKey fields k (.list (acc ++ [.str v]))) k = none
            ∧ acc ++ [Value.str v] = [])
          ∨ lookupR (setKey fields k (.list (acc ++ [.str v]))) k
            = some (.list (acc ++ [.str v])) :=
        Or.inr (lookupR_setKey_self _ _ _)
      have hoth1 : ∀ k' v', ArrOcc.otherK k' v' ∈ items →
          lookupR (setKey fields k (.list (acc ++ [.str v]))) k' = none
          ∨ ∃ l, lookupR (setKey fields k (.list (acc ++ [.str v]))) k'
              = some (.list l) := by
        intro k' v' hmem
        obtain ⟨_, hk'ne, _, _⟩ := hocc' _ hmem
        rw [lookupR_setKey_ne _ _ _ _ hk'ne]
        exact hoth k' v' (by simp [hmem])
      obtain ⟨fields', heq, hinv⟩ := ih fuel fname
        (setKey fields k (.list (acc ++ [.str v]))) rest warns (acc ++ [.str v])
        hocc' hk1 hoth1
      refine ⟨fields', heq, ?_⟩
      rcases hinv with ⟨_, hemp⟩ | hsome
      · exact absurd hemp (by simp)
      · refine Or.inr ?_
        rw [hsome]
        simp [occVal, List.filterMap_cons, List.append_assoc]
    | nestedK =>
      simp only [List.map_cons, List.flatten_cons, occLines, List.append_assoc,
        List.cons_append, List.nil_append]
      have hrec : process_nested_fields (items.length + fuel + 1) k []
          (('<' :: '/' :: (k ++ ['>', '\n'])) :: ((items.map (occLines k)).flatten ++ rest))
          warns
          = .ok ([], (items.map (occLines k)).flatten ++ rest, warns) :=
        pnf_step_close_std (items.length + fuel) k [] _ warns
      have hset : process_nested_fields ((items.length + fuel + 1) + 1) fname fields
            (('<' :: (k ++ '>' :: ['\n'])) ::
              ('<' :: '/' :: (k ++ ['>', '\n'])) ::
                ((items.map (occLines k)).flatten ++ rest)) warns
          = process_nested_fields (items.length + fuel + 1) fname
              (setKey fields k (.list (acc ++ [.dict []])))
              ((items.map (occLines k)).flatten ++ rest) warns := by
        rcases hk with ⟨h0, rfl⟩ | h0
        · have := pnf_step_nested_array_none (items.length + fuel + 1) fname k ['\n'] fields
            _ _ warns warns [] hg hka hT hS hE (by decide) h0 hrec
          simpa using this
        · have := pnf_step_nested_array_some (items.length + fuel + 1) fname k ['\n'] fields
            _ _ warns warns [] acc hg hka hT hS hE (by decide) h0 hrec
          exact this
      rw [hset]
      have hk1 : (lookupR (setKey fields k (.list (acc ++ [.dict []]))) k = none
            ∧ acc ++ [Value.dict []] = [])
          ∨ lookupR (setKey fields k (.list (acc ++ [.dict []]))) k
            = some (.list (acc ++ [.dict []])) :=
        Or.inr (lookupR_setKey_self _ _ _)
      have hoth1 : ∀ k' v', ArrOcc.otherK k' v' ∈ items →
          lookupR (setKey fields k (.list (acc ++ [.dict []]))) k' = none
          ∨ ∃ l, lookupR (setKey fields k (.list (acc ++ [.dict []]))) k'
              = some (.list l) := by
        intro k' v' hmem
        obtain ⟨_, hk'ne, _, _⟩ := hocc' _ hmem
        rw [lookupR_setKey_ne _ _ _ _ hk'ne]
        exact hoth k' v' (by simp [hmem])
      obtain ⟨fields', heq, hinv⟩ := ih fuel fname
        (setKey fields k (.list (acc ++ [.dict []]))) rest warns (acc ++ [.dict []])
        hocc' hk1 hoth1
      refine ⟨fields', heq, ?_⟩
      rcases hinv with ⟨_, hemp⟩ | hsome
      · exact absurd hemp (by simp)
      · refine Or.inr ?_
        rw [hsome]
        simp [occVal, List.filterMap_cons, List.append_assoc]
    | otherK k' v =>
      obtain ⟨hk'arr, hk'ne, hstrip, hvne⟩ := hocc_i
      obtain ⟨hg', hT', hS', _⟩ := array_key_good k' hk'arr
      have hvne' : pyStrip (v ++ ['\n']) ≠ [] := by rw [hstrip]; exact hvne
      simp only [List.map_cons, List.flatten_cons, occLines, List.append_assoc,
        List.cons_append, List.nil_append]
      rcases hoth k' v (by simp) with h0' | ⟨l', h0'⟩
      · have step := pnf_step_scalar_array_none (items.length + fuel + 1) fname k' (v ++ ['\n'])
          fields ((items.map (occLines k)).flatten ++ rest) warns hg' hk'arr hT' hS' hvne' h0'
        rw [hstrip] at step
        rw [step]
        have hk1 : (lookupR (setKey fields k' (.list [.str v])) k = none ∧ acc = [])
            ∨ lookupR (setKey fields k' (.list [.str v])) k = some (.list acc) := by
          rw [lookupR_setKey_ne _ _ _ _ (Ne.symm hk'ne)]
          exact hk
        have hoth1 : ∀ k'' v'', ArrOcc.otherK k'' v'' ∈ items →
            lookupR (setKey fields k' (.list [.str v])) k'' = none
            ∨ ∃ l, lookupR (setKey fields k' (.list [.str v])) k'' = some (.list l) := by
          intro k'' v'' hmem
          by_cases hkk : k'' = k'
          · subst hkk
            exact Or.inr ⟨_, lookupR_setKey_self _ _ _⟩
          · rw [lookupR_setKey_ne _ _ _ _ hkk]
            exact hoth k'' v'' (by simp [hmem])
        obtain ⟨fields', heq, hinv⟩ := ih fuel fname
          (setKey fields k' (.list [.str v])) rest warns acc hocc' hk1 hoth1
        refine ⟨fields', heq, ?_⟩
        simpa [occVal, List.filterMap_cons] using hinv
      · have step := pnf_step_scalar_array_some (items.length + fuel + 1) fname k' (v ++ ['\n'])
          fields ((items.map (occLines k)).flatten ++ rest) warns l' hg' hk'arr hT' hS' hvne' h0'
        rw [hstrip] at step
        rw [step]
        have hk1 : (lookupR (setKey fields k' (.list (l' ++ [.str v]))) k = none ∧ acc = [])
            ∨ lookupR (setKey fields k' (.list (l' ++ [.str v]))) k = some (.list acc) := by
          rw [lookupR_setKey_ne _ _ _ _ (Ne.symm hk'ne)]
          exact hk
        have hoth1 : ∀ k'' v'', ArrOcc.otherK k'' v'' ∈ items →
            lookupR (setKey fields k' (.list (l' ++ [.str v]))) k'' = none
            ∨ ∃ l, lookupR (setKey fields k' (.list (l' ++ [.str v]))) k'' = some (.list l) := by
          intro k'' v'' hmem
          by_cases hkk : k'' = k'
          · subst hkk
            exact Or.inr ⟨_, lookupR_setKey_self _ _ _⟩
          · rw [lookupR_setKey_ne _ _ _ _ hkk]
            exact hoth k'' v'' (by simp [hmem])
        obtain ⟨fields', heq, hinv⟩ := ih fuel fname
          (setKey fields k' (.list (l' ++ [.str v]))) rest warns acc hocc' hk1 hoth1
        refine ⟨fields', heq, ?_⟩
        simpa [occVal, List.filterMap_cons] using hinv

/-! ### Step lemmas for the Header Block Parser -/

theorem pyStrip_ne_nil_of_mem (s : List Char) (c : Char) (hc : c ∈ s)
    (hw : isPyWs c = false) : pyStrip s ≠ [] := by
  intro h
  have h1 : (s.dropWhile isPyWs).reverse.dropWhile isPyWs = [] := by
    have := congrArg List.reverse h
    simpa [pyStrip] using this
  have h2 : ∀ x ∈ (s.dropWhile isPyWs).reverse, isPyWs x = true :=
    List.dropWhile_eq_nil_iff.mp h1
  have h3 : ∀ x ∈ s.dropWhile isPyWs, isPyWs x = true := by
    intro x hx
    exact h2 x (List.mem_reverse.mpr hx)
  have h4 : ∀ x ∈ s.takeWhile isPyWs, isPyWs x = true := by
    intro x hx
    exact List.mem_takeWhile_imp hx
  have h5 : ∀ x ∈ s, isPyWs x = true := by
    intro x hx
    rw [← List.takeWhile_append_dropWhile (p := isPyWs) (l := s)] at hx
    rcases List.mem_append.mp hx with h | h
    · exact h4 x h
    · exact h3 x h
  have := h5 c hc
  rw [hw] at this
  exact Bool.false_ne_true this

theorem pth_step_nested_array (fuel : Nat) (bottom : Record) (upper : List HFrame)
    (key w : List Char) (rest : List (List Char)) (warns : List Warning)
    (okey : List Char) (sub : KeyMap) (l : List Value)
    (hcolon : ':' ∉ key) (hkstrip : pyStrip key = key)
    (hterm : (sl "</SEC-HEADER>").isPrefixOf (key ++ ':' :: w) = false)
    (hadt : (sl "<ACCEPTANCE-DATETIME>").isPrefixOf (key ++ ':' :: w) = false)
    (hkm : lookupKM (hdrActiveScope upper) key = some (.nested okey sub))
    (hka : field_is_array okey = true)
    (hl : lookupR (hdrActiveR bottom upper) okey = some (.list l)) :
    processTxtHeader (fuel+1) bottom upper ((key ++ ':' :: w) :: rest) warns
      = processTxtHeader fuel
          (setActiveR bottom upper
            (setKey (hdrActiveR bottom upper) okey (.list (l ++ [.dict []])))).1
          (⟨[], sub, okey, true⟩ ::
            (setActiveR bottom upper
              (setKey (hdrActiveR bottom upper) okey (.list (l ++ [.dict []])))).2)
          rest warns := by
  have hblank : pyStrip (key ++ ':' :: w) ≠ [] :=
    pyStrip_ne_nil_of_mem _ ':' (by simp) (by decide)
  simp only [processTxtHeader]
  rw [if_neg hblank]
  rw [if_neg (by rw [hterm]; simp)]
  rw [if_neg (by rw [hadt]; simp)]
  simp only [splitOnce_first ':' key w hcolon, hkstrip, hkm]
  rw [if_pos hka]
  simp only [hl]

theorem pth_step_plain_dup (fuel : Nat) (bottom : Record) (upper : List HFrame)
    (key w : List Char) (rest : List (List Char)) (warns : List Warning)
    (okey : List Char)
    (hcolon : ':' ∉ key) (hkstrip : pyStrip key = key)
    (hterm : (sl "</SEC-HEADER>").isPrefixOf (key ++ ':' :: w) = false)
    (hadt : (sl "<ACCEPTANCE-DATETIME>").isPrefixOf (key ++ ':' :: w) = false)
    (hkm : lookupKM (hdrActiveScope upper) key = some (.plain okey))
    (hka : field_is_array okey = false)
    (hsome : (lookupR (hdrActiveR bottom upper) okey).isSome = true) :
    processTxtHeader (fuel+1) bottom upper ((key ++ ':' :: w) :: rest) warns
      = processTxtHeader fuel
          (setActiveR bottom upper
            (setKey (hdrActiveR bottom upper) okey (.str (pyStrip w)))).1
          (setActiveR bottom upper
            (setKey (hdrActiveR bottom upper) okey (.str (pyStrip w)))).2
          rest (warns ++ [.duplicateKeyHdr okey]) := by
  have hblank : pyStrip (key ++ ':' :: w) ≠ [] :=
    pyStrip_ne_nil_of_mem _ ':' (by simp) (by decide)
  simp only [processTxtHeader]
  rw [if_neg hblank]
  rw [if_neg (by rw [hterm]; simp)]
  rw [if_neg (by rw [hadt]; simp)]
  simp only [splitOnce_first ':' key w hcolon, hkstrip, hkm]
  rw [if_neg (by rw [hka]; simp)]
  rw [if_pos hsome]

theorem pth_step_nested_array_none (fuel : Nat) (bottom : Record) (upper : List HFrame)
    (key w : List Char) (rest : List (List Char)) (warns : List Warning)
    (okey : List Char) (sub : KeyMap)
    (hcolon : ':' ∉ key) (hkstrip : pyStrip key = key)
    (hterm : (sl "</SEC-HEADER>").isPrefixOf (key ++ ':' :: w) = false)
    (hadt : (sl "<ACCEPTANCE-DATETIME>").isPrefixOf (key ++ ':' :: w) = false)
    (hkm : lookupKM (hdrActiveScope upper) key = some (.nested okey sub))
    (hka : field_is_array okey = true)
    (hl : lookupR (hdrActiveR bottom upper) okey = none) :
    processTxtHeader (fuel+1) bottom upper ((key ++ ':' :: w) :: rest) warns
      = processTxtHeader fuel
          (setActiveR bottom upper
            (setKey (hdrActiveR bottom upper) okey (.list [.dict []]))).1
          (⟨[], sub, okey, true⟩ ::
            (setActiveR bottom upper
              (setKey (hdrActiveR bottom upper) okey (.list [.dict []]))).2)
          rest warns := by
  have hblank : pyStrip (key ++ ':' :: w) ≠ [] :=
    pyStrip_ne_nil_of_mem _ ':' (by simp) (by decide)
  simp only [processTxtHeader]
  rw [if_neg hblank]
  rw [if_neg (by rw [hterm]; simp)]
  rw [if_neg (by rw [hadt]; simp)]
  simp only [splitOnce_first ':' key w hcolon, hkstrip, hkm]
  rw [if_pos hka]
  simp only [hl]

theorem pth_step_plain_array_none (fuel : Nat) (bottom : Record) (upper : List HFrame)
    (key w : List Char) (rest : List (List Char)) (warns : List Warning)
    (okey : List Char)
    (hcolon : ':' ∉ key) (hkstrip : pyStrip key = key)
    (hterm : (sl "</SEC-HEADER>").isPrefixOf (key ++ ':' :: w) = false)
    (hadt : (sl "<ACCEPTANCE-DATETIME>").isPrefixOf (key ++ ':' :: w) = false)
    (hkm : lookupKM (hdrActiveScope upper) key = some (.plain okey))
    (hka : field_is_array okey = true)
    (hl : lookupR (hdrActiveR bottom upper) okey = none) :
    processTxtHeader (fuel+1) bottom upper ((key ++ ':' :: w) :: rest) warns
      = processTxtHeader fuel
          (setActiveR bottom upper
            (setKey (hdrActiveR bottom upper) okey (.list [.str (pyStrip w)]))).1
          (setActiveR bottom upper
            (setKey (hdrActiveR bottom upper) okey (.list [.str (pyStrip w)]))).2
          rest warns := by
  have hblank : pyStrip (key ++ ':' :: w) ≠ [] :=
    pyStrip_ne_nil_of_mem _ ':' (by simp) (by decide)
  simp only [processTxtHeader]
  rw [if_neg hblank]
  rw [if_neg (by rw [hterm]; simp)]
  rw [if_neg (by rw [hadt]; simp)]
  simp only [splitOnce_first ':' key w hcolon, hkstrip, hkm]
  rw [if_pos hka]
  simp only [hl]

theorem pth_step_plain_array_some (fuel : Nat) (bottom : Record) (upper : List HFrame)
    (key w : List Char) (rest : List (List Char)) (warns : List Warning)
    (okey : List Char) (l : List Value)
    (hcolon : ':' ∉ key) (hkstrip : pyStrip key = key)
    (hterm : (sl "</SEC-HEADER>").isPrefixOf (key ++ ':' :: w) = false)
    (hadt : (sl "<ACCEPTANCE-DATETIME>").isPrefixOf (key ++ ':' :: w) = false)
    (hkm : lookupKM (hdrActiveScope upper) key = some (.plain okey))
    (hka : field_is_array okey = true)
    (hl : lookupR (hdrActiveR bottom upper) okey = some (.list l)) :
    processTxtHeader (fuel+1) bottom upper ((key ++ ':' :: w) :: rest) warns
      = processTxtHeader fuel
          (setActiveR bottom upper
            (setKey (hdrActiveR bottom upper) okey (.list (l ++ [.str (pyStrip w)])))).1
          (setActiveR bottom upper
            (setKey (hdrActiveR bottom upper) okey (.list (l ++ [.str (pyStrip w)])))).2
          rest warns := by
  have hblank : pyStrip (key ++ ':' :: w) ≠ [] :=
    pyStrip_ne_nil_of_mem _ ':' (by simp) (by decide)
  simp only [processTxtHeader]
  rw [if_neg hblank]
  rw [if_neg (by rw [hterm]; simp)]
  rw [if_neg (by rw [hadt]; simp)]
  simp only [splitOnce_first ':' key w hcolon, hkstrip, hkm]
  rw [if_pos hka]
  simp only [hl]

/-! ### The invalid-leading-marker error is raised only by the entry point -/

theorem pth_ne_ilm : ∀ (fuel : Nat) (bottom : Record) (upper : List HFrame)
    (reader : List (List Char)) (warns : List Warning),
    processTxtHeader fuel bottom upper reader warns ≠ .err .invalidLeadingMarker := by
  intro fuel
  induction fuel with
  | zero =>
    intro bottom upper reader warns
    simp [processTxtHeader]
  | succ n ih =>
    intro bottom upper reader warns
    cases reader with
    | nil =>
      simp only [processTxtHeader]
      split
      · exact ih _ _ _ _
      · exact ih _ _ _ _
    | cons line rest =>
      simp only [processTxtHeader]
      repeat' split
      all_goals first
        | exact ih _ _ _ _
        | simp

theorem pnf_ne_ilm : ∀ (fuel : Nat) (fname : List Char) (fields : Record)
    (reader : List (List Char)) (warns : List Warning),
    process_nested_fields fuel fname fields reader warns ≠ .err .invalidLeadingMarker := by
  intro fuel
  induction fuel with
  | zero =>
    intro fname fields reader warns
    simp [process_nested_fields]
  | succ n ih =>
    intro fname fields reader warns
    cases reader with
    | nil => simp [process_nested_fields]
    | cons line rest =>
      simp only [process_nested_fields]
      repeat' split
      all_goals first
        | exact ih _ _ _ _
        | (rename_i e heq
           intro hcon
           injection hcon with h'
           subst h'
           first
             | exact absurd (readTextRaw_err _ _ _ heq) (by decide)
             | exact pth_ne_ilm _ _ _ _ _ heq
             | exact ih _ _ _ _ heq)
        | simp

theorem deserializeBody_ne_ilm (fuel : Nat) (rest : List (List Char)) :
    deserializeBody fuel rest ≠ .err .invalidLeadingMarker := by
  simp only [deserializeBody]
  repeat' split
  all_goals first
    | (rename_i e heq
       intro hcon
       injection hcon with h'
       subst h'
       exact pnf_ne_ilm _ _ _ _ _ heq)
    | simp

/-! ### Claim theorems -/

/-- C1: for the concrete Scenario A input, `deserialize` returns exactly the
record with `ACCESSION-NUMBER = "0000000000-24-000001"`, `TYPE = "10-K"` and
`FILER` a one-element sequence holding a record whose single field
`COMPANY-DATA` is the nested record with `CONFORMED-NAME = "ACME CORP"` and
`CIK = "0000000001"` (plus the non-fatal warning that the expected top-level
`DOCUMENT` field is absent). -/
theorem C1_scenarioA_deserialize :
    deserialize 20 [sl "<SUBMISSION>\n",
      sl "<ACCESSION-NUMBER>0000000000-24-000001\n",
      sl "<TYPE>10-K\n",
      sl "<FILER>\n",
      sl "<COMPANY-DATA>\n",
      sl "<CONFORMED-NAME>ACME CORP\n",
      sl "<CIK>0000000001\n",
      sl "</COMPANY-DATA>\n",
      sl "</FILER>\n",
      sl "</SUBMISSION>\n"]
    = .ok ([(sl "ACCESSION-NUMBER", .str (sl "0000000000-24-000001")),
            (sl "TYPE", .str (sl "10-K")),
            (sl "FILER", .list [.dict [(sl "COMPANY-DATA",
              .dict [(sl "CONFORMED-NAME", .str (sl "ACME CORP")),
                     (sl "CIK", .str (sl "0000000001"))])]])],
           [Warning.missingTop (sl "DOCUMENT")]) := rfl

/-- C2: for every key of the Array-Field Policy set, every population of
that key, by either parser, at any nesting level, goes into a sequence, and
n occurrences at one level yield a sequence of length exactly n in
encounter order. Conjuncts: (1) Tag-Block Parser, n occurrences at one
level — scalar `<k>v` and nested `<k>`…`</k>` forms mixed, interleaved with
scalar occurrences of other array keys — produce under `k` the sequence of
exactly the `k`-occurrences' elements in encounter order, of length equal
to the occurrence count; (2) Tag-Block Parser, nested-block population
`<k>` with an arbitrary block body, from any prior state (absent key or
existing sequence), appends the finished child record; (3) Tag-Block
Parser, scalar population from any prior state appends the stripped value;
(4) Header Block Parser, a nested remap entry with array-valued canonical
name `k` appends a record to the sequence, creating it when absent;
(5) Header Block Parser, a plain remap entry with array-valued canonical
name `k` appends the value to the sequence, creating it when absent. -/
theorem C2_array_field_policy :
    ∀ k, field_is_array k = true →
      (∀ (items : List ArrOcc) (fuel : Nat) (fname : List Char) (fields : Record)
        (rest : List (List Char)) (warns : List Warning),
        (∀ i ∈ items, occOk k i) →
        lookupR fields k = none →
        (∀ k' v, ArrOcc.otherK k' v ∈ items →
          lookupR fields k' = none ∨ ∃ l, lookupR fields k' = some (.list l)) →
        items.filterMap occVal ≠ [] →
        ∃ fields',
          process_nested_fields (items.length + fuel + 1) fname fields
            ((items.map (occLines k)).flatten ++
              ('<' :: '/' :: (fname ++ ['>', '\n'])) :: rest) warns
          = .ok (fields', rest, warns)
          ∧ lookupR fields' k = some (.list (items.filterMap occVal))
          ∧ (items.filterMap occVal).length = items.countP (fun i => (occVal i).isSome))
      ∧
      (∀ (fuel : Nat) (fname w : List Char) (fields : Record)
        (rest rest' : List (List Char)) (warns warns' : List Warning)
        (child : Record) (l : List Value),
        pyStrip w = [] →
        ((lookupR fields k = none ∧ l = []) ∨ lookupR fields k = some (.list l)) →
        process_nested_fields fuel k [] rest warns = .ok (child, rest', warns') →
        process_nested_fields (fuel+1) fname fields (('<' :: (k ++ '>' :: w)) :: rest) warns
          = process_nested_fields fuel fname
              (setKey fields k (.list (l ++ [.dict child]))) rest' warns'
          ∧ lookupR (setKey fields k (.list (l ++ [.dict child]))) k
            = some (.list (l ++ [.dict child])))
      ∧
      (∀ (fuel : Nat) (fname w : List Char) (fields : Record) (rest : List (List Char))
        (warns : List Warning) (l : List Value),
        pyStrip w ≠ [] →
        ((lookupR fields k = none ∧ l = []) ∨ lookupR fields k = some (.list l)) →
        process_nested_fields (fuel+1) fname fields (('<' :: (k ++ '>' :: w)) :: rest) warns
          = process_nested_fields fuel fname
              (setKey fields k (.list (l ++ [.str (pyStrip w)]))) rest warns
          ∧ lookupR (setKey fields k (.list (l ++ [.str (pyStrip w)]))) k
            = some (.list (l ++ [.str (pyStrip w)])))
      ∧
      (∀ (fuel : Nat) (bottom : Record) (upper : List HFrame) (key w : List Char)
        (rest : List (List Char)) (warns : List Warning) (sub : KeyMap) (l : List Value),
        (':' ∉ key) → pyStrip key = key →
        (sl "</SEC-HEADER>").isPrefixOf (key ++ ':' :: w) = false →
        (sl "<ACCEPTANCE-DATETIME>").isPrefixOf (key ++ ':' :: w) = false →
        lookupKM (hdrActiveScope upper) key = some (.nested k sub) →
        ((lookupR (hdrActiveR bottom upper) k = none ∧ l = [])
          ∨ lookupR (hdrActiveR bottom upper) k = some (.list l)) →
        processTxtHeader (fuel+1) bottom upper ((key ++ ':' :: w) :: rest) warns
          = processTxtHeader fuel
              (setActiveR bottom upper
                (setKey (hdrActiveR bottom upper) k (.list (l ++ [.dict []])))).1
              (⟨[], sub, k, true⟩ ::
                (setActiveR bottom upper
                  (setKey (hdrActiveR bottom upper) k (.list (l ++ [.dict []])))).2)
              rest warns
          ∧ lookupR (setKey (hdrActiveR bottom upper) k (.list (l ++ [.dict []]))) k
            = some (.list (l ++ [.dict []])))
      ∧
      (∀ (fuel : Nat) (bottom : Record) (upper : List HFrame) (key w : List Char)
        (rest : List (List Char)) (warns : List Warning) (l : List Value),
        (':' ∉ key) → pyStrip key = key →
        (sl "</SEC-HEADER>").isPrefixOf (key ++ ':' :: w) = false →
        (sl "<ACCEPTANCE-DATETIME>").isPrefixOf (key ++ ':' :: w) = false →
        lookupKM (hdrActiveScope upper) key = some (.plain k) →
        ((lookupR (hdrActiveR bottom upper) k = none ∧ l = [])
          ∨ lookupR (hdrActiveR bottom upper) k = some (.list l)) →
        processTxtHeader (fuel+1) bottom upper ((key ++ ':' :: w) :: rest) warns
          = processTxtHeader fuel
              (setActiveR bottom upper
                (setKey (hdrActiveR bottom upper) k (.list (l ++ [.str (pyStrip w)])))).1
              (setActiveR bottom upper
                (setKey (hdrActiveR bottom upper) k (.list (l ++ [.str (pyStrip w)])))).2
              rest warns
          ∧ lookupR (setKey (hdrActiveR bottom upper) k (.list (l ++ [.str (pyStrip w)]))) k
            = some (.list (l ++ [.str (pyStrip w)]))) := by
  intro k hk
  obtain ⟨hg, hT, hS, hE⟩ := array_key_good k hk
  refine ⟨?_, ?_, ?_, ?_, ?_⟩
  · intro items fuel fname fields rest warns hocc h0 hoth hvals
    obtain ⟨fields', heq, hinv⟩ := pnf_array_mixed_accum k hg hk hT hS hE items fuel fname
      fields (('<' :: '/' :: (fname ++ ['>', '\n'])) :: rest) warns [] hocc
      (Or.inl ⟨h0, rfl⟩) hoth
    refine ⟨fields', ?_, ?_, length_filterMap_eq_countP _ _⟩
    · rw [heq]
      exact pnf_step_close_std fuel fname fields' rest warns
    · rcases hinv with ⟨_, hemp⟩ | hsome
      · exact absurd (by simpa using hemp) hvals
      · simpa using hsome
  · intro fuel fname w fields rest rest' warns warns' child l hv hl hrec
    rcases hl with ⟨h0, rfl⟩ | h0
    · exact ⟨pnf_step_nested_array_none fuel fname k w fields rest rest' warns warns' child
        hg hk hT hS hE hv h0 hrec, lookupR_setKey_self _ _ _⟩
    · exact ⟨pnf_step_nested_array_some fuel fname k w fields rest rest' warns warns' child l
        hg hk hT hS hE hv h0 hrec, lookupR_setKey_self _ _ _⟩
  · intro fuel fname w fields rest warns l hv hl
    rcases hl with ⟨h0, rfl⟩ | h0
    · exact ⟨pnf_step_scalar_array_none fuel fname k w fields rest warns hg hk hT hS hv h0,
        lookupR_setKey_self _ _ _⟩
    · exact ⟨pnf_step_scalar_array_some fuel fname k w fields rest warns l hg hk hT hS hv h0,
        lookupR_setKey_self _ _ _⟩
  · intro fuel bottom upper key w rest warns sub l hcolon hkstrip hterm hadt hkm hl
    rcases hl with ⟨h0, rfl⟩ | h0
    · exact ⟨pth_step_nested_array_none fuel bottom upper key w rest warns k sub
        hcolon hkstrip hterm hadt hkm hk h0, lookupR_setKey_self _ _ _⟩
    · exact ⟨pth_step_nested_array fuel bottom upper key w rest warns k sub l
        hcolon hkstrip hterm hadt hkm hk h0, lookupR_setKey_self _ _ _⟩
  · intro fuel bottom upper key w rest warns l hcolon hkstrip hterm hadt hkm hl
    rcases hl with ⟨h0, rfl⟩ | h0
    · exact ⟨pth_step_plain_array_none fuel bottom upper key w rest warns k
        hcolon hkstrip hterm hadt hkm hk h0, lookupR_setKey_self _ _ _⟩
    · exact ⟨pth_step_plain_array_some fuel bottom upper key w rest warns k l
        hcolon hkstrip hterm hadt hkm hk h0, lookupR_setKey_self _ _ _⟩

/-- Witness for C2, one concrete instance per conjunct: (1) the array key
`ITEMS` with a scalar occurrence, an interleaved `SERIES` line, a nested
occurrence and another scalar occurrence yields the three-element sequence
in encounter order; (2) a `<FILER>` nested block with a non-empty body
appends the finished child record; (3) a scalar `<ITEMS>` line appends to an
existing sequence; (4) the header line `FILER:` creates the `FILER` sequence
with one record; (5) a plain remap entry to `ITEMS` (in a frame scope)
creates the `ITEMS` sequence with the value. -/
theorem C2_witness :
    (∃ fields',
      process_nested_fields 5 (sl "SUBMISSION") []
        [sl "<ITEMS>1.01\n", sl "<SERIES>X\n", sl "<ITEMS>\n", sl "</ITEMS>\n",
          sl "<ITEMS>2.02\n", sl "</SUBMISSION>\n"] []
      = .ok (fields', [], [])
      ∧ lookupR fields' (sl "ITEMS")
          = some (.list [Value.str (sl "1.01"), Value.dict [], Value.str (sl "2.02")])
      ∧ ([Value.str (sl "1.01"), Value.dict [], Value.str (sl "2.02")]).length = 3)
    ∧ (process_nested_fields 3 (sl "SUBMISSION") []
          [sl "<FILER>\n", sl "<CIK>7\n", sl "</FILER>\n"] []
        = process_nested_fields 2 (sl "SUBMISSION")
            (setKey [] (sl "FILER") (.list [.dict [(sl "CIK", Value.str (sl "7"))]])) [] []
        ∧ lookupR (setKey [] (sl "FILER")
            (.list [.dict [(sl "CIK", Value.str (sl "7"))]])) (sl "FILER")
          = some (.list [.dict [(sl "CIK", Value.str (sl "7"))]]))
    ∧ (process_nested_fields 8 (sl "SUBMISSION")
          [(sl "ITEMS", Value.list [Value.str (sl "9.01")])] [sl "<ITEMS>1.01\n"] []
        = process_nested_fields 7 (sl "SUBMISSION")
            (setKey [(sl "ITEMS", Value.list [Value.str (sl "9.01")])] (sl "ITEMS")
              (.list [Value.str (sl "9.01"), Value.str (sl "1.01")])) [] []
        ∧ lookupR (setKey [(sl "ITEMS", Value.list [Value.str (sl "9.01")])] (sl "ITEMS")
            (.list [Value.str (sl "9.01"), Value.str (sl "1.01")])) (sl "ITEMS")
          = some (.list [Value.str (sl "9.01"), Value.str (sl "1.01")]))
    ∧ (processTxtHeader 1 [] [] [sl "FILER:\n"] []
        = processTxtHeader 0
            (setActiveR [] [] (setKey (hdrActiveR [] []) (sl "FILER")
              (.list [Value.dict []]))).1
            (⟨[], (match lookupKM KEY_MAP (sl "FILER") with
                   | some (.nested _ sub) => sub
                   | _ => []), sl "FILER", true⟩ ::
              (setActiveR [] [] (setKey (hdrActiveR [] []) (sl "FILER")
                (.list [Value.dict []]))).2)
            [] []
        ∧ lookupR (setKey (hdrActiveR [] []) (sl "FILER") (.list [Value.dict []])) (sl "FILER")
          = some (.list [Value.dict []]))
    ∧ (processTxtHeader 1 []
          [(⟨[], [(sl "ITEM CODE", KMEntry.plain (sl "ITEMS"))], sl "FILER", true⟩ : HFrame)]
          [sl "ITEM CODE:5\n"] []
        = processTxtHeader 0
            (setActiveR []
              [(⟨[], [(sl "ITEM CODE", KMEntry.plain (sl "ITEMS"))], sl "FILER", true⟩ : HFrame)]
              (setKey (hdrActiveR []
                  [(⟨[], [(sl "ITEM CODE", KMEntry.plain (sl "ITEMS"))], sl "FILER", true⟩ : HFrame)])
                (sl "ITEMS") (.list [Value.str (sl "5")]))).1
            (setActiveR []
              [(⟨[], [(sl "ITEM CODE", KMEntry.plain (sl "ITEMS"))], sl "FILER", true⟩ : HFrame)]
              (setKey (hdrActiveR []
                  [(⟨[], [(sl "ITEM CODE", KMEntry.plain (sl "ITEMS"))], sl "FILER", true⟩ : HFrame)])
                (sl "ITEMS") (.list [Value.str (sl "5")]))).2
            [] []
        ∧ lookupR (setKey (hdrActiveR []
              [(⟨[], [(sl "ITEM CODE", KMEntry.plain (sl "ITEMS"))], sl "FILER", true⟩ : HFrame)])
            (sl "ITEMS") (.list [Value.str (sl "5")])) (sl "ITEMS")
          = some (.list [Value.str (sl "5")])) := by
  refine ⟨?_, ?_, ?_, ?_, ?_⟩
  · exact (C2_array_field_policy (sl "ITEMS") rfl).1
      [ArrOcc.scalarK (sl "1.01"), ArrOcc.otherK (sl "SERIES") (sl "X"),
        ArrOcc.nestedK, ArrOcc.scalarK (sl "2.02")]
      0 (sl "SUBMISSION") [] [] [] (by decide) rfl (fun k' v _ => Or.inl rfl)
      (by simp [occVal])
  · exact (C2_array_field_policy (sl "FILER") rfl).2.1 2 (sl "SUBMISSION") (sl "\n") []
      [sl "<CIK>7\n", sl "</FILER>\n"] [] [] [] [(sl "CIK", Value.str (sl "7"))] []
      (by decide) (Or.inl ⟨rfl, rfl⟩) rfl
  · exact (C2_array_field_policy (sl "ITEMS") rfl).2.2.1 7 (sl "SUBMISSION") (sl "1.01\n")
      [(sl "ITEMS", Value.list [Value.str (sl "9.01")])] [] [] [Value.str (sl "9.01")]
      (by decide) (Or.inr rfl)
  · exact (C2_array_field_policy (sl "FILER") rfl).2.2.2.1 0 [] [] (sl "FILER") (sl "\n")
      [] [] _ [] (by decide) (by decide) (by decide) (by decide) rfl (Or.inl ⟨rfl, rfl⟩)
  · exact (C2_array_field_policy (sl "ITEMS") rfl).2.2.2.2 0 []
      [(⟨[], [(sl "ITEM CODE", KMEntry.plain (sl "ITEMS"))], sl "FILER", true⟩ : HFrame)]
      (sl "ITEM CODE") (sl "5\n") [] [] []
      (by decide) (by decide) (by decide) (by decide) rfl (Or.inl ⟨rfl, rfl⟩)

/-- C3 counterexample: `TEXT` is a non-array key, yet a second `TEXT` block
at the same nesting level does not raise a DuplicateKey error in the
Tag-Block Parser: the parse succeeds and the second block's content silently
overwrites the first, refuting the claim as stated for the key `TEXT`. -/
theorem C3_counterexample_TEXT :
    field_is_array (sl "TEXT") = false
    ∧ deserialize 20 [sl "<SUBMISSION>\n", sl "<TEXT>\n", sl "a\n", sl "</TEXT>\n",
        sl "<TEXT>\n", sl "b\n", sl "</TEXT>\n", sl "</SUBMISSION>\n"]
      = .ok ([(sl "TEXT", .str (sl "b\n"))],
             [Warning.missingTop (sl "DOCUMENT"), Warning.missingTop (sl "FILER")]) :=
  ⟨rfl, rfl⟩

/-- C3 (amended): for every non-array key other than the specially
dispatched `TEXT` and `SEC-HEADER`, a second occurrence at the same nesting
level raises the fatal DuplicateKey error in the Tag-Block Parser; in the
Header Block Parser, a key that the active remap table maps to a non-array
canonical name that is already present produces only a duplicate-key warning
and the second value overwrites the first. -/
theorem C3_amended_duplicate_policy :
    (∀ (fuel : Nat) (fname k w : List Char) (fields : Record)
      (rest : List (List Char)) (warns : List Warning),
      goodTagKey k → field_is_array k = false → k ≠ sl "TEXT" → k ≠ sl "SEC-HEADER" →
      (lookupR fields k).isSome = true →
      process_nested_fields (fuel+1) fname fields (('<' :: (k ++ '>' :: w)) :: rest) warns
        = .err (.duplicateKey k))
    ∧ (∀ (fuel : Nat) (bottom : Record) (upper : List HFrame) (key w okey : List Char)
      (rest : List (List Char)) (warns : List Warning),
      (':' ∉ key) → pyStrip key = key →
      (sl "</SEC-HEADER>").isPrefixOf (key ++ ':' :: w) = false →
      (sl "<ACCEPTANCE-DATETIME>").isPrefixOf (key ++ ':' :: w) = false →
      lookupKM (hdrActiveScope upper) key = some (.plain okey) →
      field_is_array okey = false →
      (lookupR (hdrActiveR bottom upper) okey).isSome = true →
      processTxtHeader (fuel+1) bottom upper ((key ++ ':' :: w) :: rest) warns
        = processTxtHeader fuel
            (setActiveR bottom upper
              (setKey (hdrActiveR bottom upper) okey (.str (pyStrip w)))).1
            (setActiveR bottom upper
              (setKey (hdrActiveR bottom upper) okey (.str (pyStrip w)))).2
            rest (warns ++ [.duplicateKeyHdr okey])
        ∧ lookupR (setKey (hdrActiveR bottom upper) okey (.str (pyStrip w))) okey
          = some (.str (pyStrip w))) := by
  constructor
  · intro fuel fname k w fields rest warns hg hka hT hS h0
    exact pnf_step_dup fuel fname k w fields rest warns hg hka hT hS h0
  · intro fuel bottom upper key w okey rest warns hcolon hkstrip hterm hadt hkm hka hsome
    exact ⟨pth_step_plain_dup fuel bottom upper key w rest warns okey
      hcolon hkstrip hterm hadt hkm hka hsome, lookupR_setKey_self _ _ _⟩

/-- Witness for the amended C3: a duplicate `<TYPE>` line raises the fatal
DuplicateKey error; a duplicate `FILED AS OF DATE` header line warns and
overwrites `FILING-DATE`. -/
theorem C3_amended_witness :
    (process_nested_fields 1 (sl "SUBMISSION") [(sl "TYPE", Value.str (sl "10-K"))]
      [sl "<TYPE>10-Q\n"] [] = .err (.duplicateKey (sl "TYPE")))
    ∧ (processTxtHeader 1 [(sl "FILING-DATE", Value.str (sl "20240101"))] []
        [sl "FILED AS OF DATE:20240202\n"] []
        = processTxtHeader 0
            (setActiveR [(sl "FILING-DATE", Value.str (sl "20240101"))] []
              (setKey (hdrActiveR [(sl "FILING-DATE", Value.str (sl "20240101"))] [])
                (sl "FILING-DATE") (.str (pyStrip (sl "20240202\n"))))).1
            (setActiveR [(sl "FILING-DATE", Value.str (sl "20240101"))] []
              (setKey (hdrActiveR [(sl "FILING-DATE", Value.str (sl "20240101"))] [])
                (sl "FILING-DATE") (.str (pyStrip (sl "20240202\n"))))).2
            [] ([] ++ [.duplicateKeyHdr (sl "FILING-DATE")])
        ∧ lookupR (setKey (hdrActiveR [(sl "FILING-DATE", Value.str (sl "20240101"))] [])
            (sl "FILING-DATE") (.str (pyStrip (sl "20240202\n")))) (sl "FILING-DATE")
          = some (.str (pyStrip (sl "20240202\n")))) := by
  constructor
  · exact C3_amended_duplicate_policy.1 0 (sl "SUBMISSION") (sl "TYPE") (sl "10-Q\n")
      [(sl "TYPE", Value.str (sl "10-K"))] [] []
      ⟨by decide, by decide, by decide, by decide⟩ (by decide) (by decide) (by decide) rfl
  · exact C3_amended_duplicate_policy.2 0 [(sl "FILING-DATE", Value.str (sl "20240101"))] []
      (sl "FILED AS OF DATE") (sl "20240202\n") (sl "FILING-DATE") [] []
      (by decide) (by decide) (by decide) (by decide) rfl (by decide) rfl

/-- C4 (refuting the termination contract): at end of input the header
parser's loop never finishes. With the bottom frame alone on the stack and
an exhausted line source, every amount of fuel is consumed (the loop
re-reads end of input and `continue`s forever, since the bottom frame is
never popped); consequently `deserialize` on an input whose `SEC-HEADER`
block is cut off by end of input never returns, for any fuel. -/
theorem C4_header_eof_nontermination :
    (∀ (fuel : Nat) (warns : List Warning), processTxtHeader fuel [] [] [] warns = .out)
    ∧ (∀ fuel : Nat,
        deserialize fuel [sl "<SUBMISSION>\n", sl "<SEC-HEADER>\n"] = .out) := by
  have h1 : ∀ (fuel : Nat) (warns : List Warning),
      processTxtHeader fuel [] [] [] warns = .out := by
    intro fuel
    induction fuel with
    | zero => intro warns; rfl
    | succ n ih =>
      intro warns
      simp only [processTxtHeader]
      rw [if_neg (by simp [hdrActiveR])]
      exact ih warns
  refine ⟨h1, ?_⟩
  intro fuel
  cases fuel with
  | zero => rfl
  | succ n =>
    show deserializeBody (n+1) [sl "<SEC-HEADER>\n"] = .out
    have hpnf : process_nested_fields (n+1) (sl "SUBMISSION") []
        [sl "<SEC-HEADER>\n"] [] = .out := by
      simp only [process_nested_fields]
      rw [if_neg (by decide : ¬(sl "<SEC-HEADER>\n" = ([] : List Char)))]
      rw [if_neg (by decide)]
      rw [if_neg (by decide)]
      simp only [show splitOnce '>' (sl "<SEC-HEADER>\n") = [sl "<SEC-HEADER", sl "\n"]
          from by decide,
        show pyStrip (List.drop 1 (sl "<SEC-HEADER")) = sl "SEC-HEADER" from by decide]
      rw [if_neg (by decide)]
      rw [if_pos trivial]
      rw [h1 n []]
    simp only [deserializeBody, hpnf]

/-- C5 (refuting the missing-colon error): a colon-less header line does not
raise any error: the dead guard `len(parts) == 0` can never fire because a
split-once always returns at least one part, so the whole parse of a header
containing the colon-less line `NOCOLON` succeeds. -/
theorem C5_missing_colon_never_raised :
    deserialize 10 [sl "<SUBMISSION>\n", sl "<SEC-HEADER>\n", sl "NOCOLON\n",
        sl "</SEC-HEADER>\n", sl "</SUBMISSION>\n"]
      = .ok ([], [Warning.missingTop (sl "DOCUMENT"), Warning.missingTop (sl "FILER")])
    ∧ ∀ (c : Char) (s : List Char), splitOnce c s ≠ [] :=
  ⟨rfl, splitOnce_ne_nil⟩

/-- C6: a `TEXT` block closed by a line starting with `</TEXT>` stores under
the key `TEXT` exactly the concatenation of the raw lines between the open
line and the closing line — internal newlines preserved, the closing line
excluded, no trimming — and the parser continues after the closing line. -/
theorem C6_text_block_content :
    ∀ (fuel : Nat) (fname : List Char) (fields : Record) (ls : List (List Char))
      (close : List Char) (rest : List (List Char)) (warns : List Warning),
    (∀ l ∈ ls, l ≠ [] ∧ (sl "</TEXT>").isPrefixOf l = false) →
    (sl "</TEXT>").isPrefixOf close = true →
    process_nested_fields (fuel+1) fname fields (sl "<TEXT>\n" :: (ls ++ close :: rest)) warns
      = process_nested_fields fuel fname
          (setKey fields (sl "TEXT") (.str ls.flatten)) rest warns
    ∧ lookupR (setKey fields (sl "TEXT") (.str ls.flatten)) (sl "TEXT")
      = some (.str ls.flatten) := by
  intro fuel fname fields ls close rest warns hl hc
  refine ⟨?_, lookupR_setKey_self _ _ _⟩
  rw [pnf_step_text]
  rw [readTextRaw_run ls [] close rest hl hc]
  simp

/-- Witness for C6: a `TEXT` block with the two lines `line one` and
`line two` stores their exact concatenation with newlines. -/
theorem C6_witness :
    process_nested_fields 1 (sl "SUBMISSION") []
      (sl "<TEXT>\n" :: ([sl "line one\n", sl "line two\n"] ++ sl "</TEXT>\n" :: [])) []
      = process_nested_fields 0 (sl "SUBMISSION")
          (setKey [] (sl "TEXT") (.str ([sl "line one\n", sl "line two\n"] : List (List Char)).flatten)) [] []
    ∧ lookupR (setKey [] (sl "TEXT")
          (.str ([sl "line one\n", sl "line two\n"] : List (List Char)).flatten)) (sl "TEXT")
      = some (.str ([sl "line one\n", sl "line two\n"] : List (List Char)).flatten) :=
  C6_text_block_content 0 (sl "SUBMISSION") [] [sl "line one\n", sl "line two\n"]
    (sl "</TEXT>\n") [] [] (by decide) (by decide)

/-- C7: end-of-input asymmetry of the Tag-Block Parser. In normal tag mode
an exhausted line source makes `process_nested_fields` return normally,
whereas inside a `TEXT` raw-accumulation block (no line starting with
`</TEXT>` remains) exhaustion raises the fatal unterminated-raw-block
error. -/
theorem C7_eof_asymmetry :
    (∀ (fuel : Nat) (fname : List Char) (fields : Record) (warns : List Warning),
      process_nested_fields (fuel+1) fname fields [] warns = .ok (fields, [], warns))
    ∧ (∀ (fuel : Nat) (fname : List Char) (fields : Record) (warns : List Warning)
        (ls : List (List Char)),
        (∀ l ∈ ls, l ≠ [] ∧ (sl "</TEXT>").isPrefixOf l = false) →
        process_nested_fields (fuel+1) fname fields (sl "<TEXT>\n" :: ls) warns
          = .err .unterminatedText) := by
  constructor
  · intro fuel fname fields warns
    rfl
  · intro fuel fname fields warns ls hl
    rw [pnf_step_text]
    rw [readTextRaw_noclose ls [] hl]

/-- Witness for C7: end of input right after a `TEXT` open line (with one
free-text line read) raises the unterminated-raw-block error, while end of
input in tag mode returns the fields unchanged. -/
theorem C7_witness :
    process_nested_fields 3 (sl "SUBMISSION") [] [] []
      = .ok ([], [], [])
    ∧ process_nested_fields 3 (sl "SUBMISSION") [] [sl "<TEXT>\n", sl "abc\n"] []
      = .err .unterminatedText :=
  ⟨C7_eof_asymmetry.1 2 (sl "SUBMISSION") [] [],
   C7_eof_asymmetry.2 2 (sl "SUBMISSION") [] [] [sl "abc\n"] (by decide)⟩

/-- C8: `deserialize` raises the fatal invalid-leading-marker error exactly
when the first line does not start with `<SUBMISSION>` or `<SEC-DOCUMENT>`
(an empty input, whose first read returns the empty line, also fails); when
the first line does start with one of the two markers, the parse proceeds on
the remaining lines. -/
theorem C8_leading_marker :
    (∀ fuel : Nat, deserialize fuel [] = .err .invalidLeadingMarker)
    ∧ (∀ (fuel : Nat) (first : List Char) (rest : List (List Char)),
        (deserialize fuel (first :: rest) = .err .invalidLeadingMarker
          ↔ ¬(((sl "<SUBMISSION>").isPrefixOf first
               || (sl "<SEC-DOCUMENT>").isPrefixOf first) = true))
        ∧ (((sl "<SUBMISSION>").isPrefixOf first
            || (sl "<SEC-DOCUMENT>").isPrefixOf first) = true →
            deserialize fuel (first :: rest) = deserializeBody fuel rest)) := by
  constructor
  · intro fuel
    rfl
  · intro fuel first rest
    by_cases hm : ((sl "<SUBMISSION>").isPrefixOf first
        || (sl "<SEC-DOCUMENT>").isPrefixOf first) = true
    · have hd : deserialize fuel (first :: rest) = deserializeBody fuel rest := by
        simp only [deserialize]
        rw [if_pos hm]
      refine ⟨?_, fun _ => hd⟩
      rw [hd]
      constructor
      · intro h
        exact absurd h (deserializeBody_ne_ilm fuel rest)
      · intro h
        exact absurd hm h
    · have hd : deserialize fuel (first :: rest) = .err .invalidLeadingMarker := by
        simp only [deserialize]
        rw [if_neg hm]
      exact ⟨by rw [hd]; simp [hm], fun h => absurd h hm⟩

/-- Witness for C8: a first line `GARBAGE` fails with the
invalid-leading-marker error, while a first line `<SUBMISSION>` proceeds to
parse the remaining lines. -/
theorem C8_witness :
    (deserialize 5 (sl "GARBAGE\n" :: [sl "<TYPE>10-K\n"]) = .err .invalidLeadingMarker)
    ∧ deserialize 5 (sl "<SUBMISSION>\n" :: [sl "<TYPE>10-K\n"])
        = deserializeBody 5 [sl "<TYPE>10-K\n"] :=
  ⟨((C8_leading_marker.2 5 (sl "GARBAGE\n") [sl "<TYPE>10-K\n"]).1).mpr (by decide),
   (C8_leading_marker.2 5 (sl "<SUBMISSION>\n") [sl "<TYPE>10-K\n"]).2 (by decide)⟩

/-- C9: processing the line `FILED AS OF DATE:20240101` in the top-level
scope of a `SEC-HEADER` block stores the scalar `"20240101"` under the
canonical key `FILING-DATE` on the enclosing record and continues (with a
duplicate-key warning exactly when `FILING-DATE` was already present). -/
theorem C9_filed_as_of_date :
    ∀ (fuel : Nat) (bottom : Record) (rest : List (List Char)) (warns : List Warning),
    processTxtHeader (fuel+1) bottom [] (sl "FILED AS OF DATE:20240101\n" :: rest) warns
      = processTxtHeader fuel (setKey bottom (sl "FILING-DATE") (.str (sl "20240101"))) [] rest
          (if (lookupR bottom (sl "FILING-DATE")).isSome
           then warns ++ [.duplicateKeyHdr (sl "FILING-DATE")] else warns)
    ∧ lookupR (setKey bottom (sl "FILING-DATE") (.str (sl "20240101"))) (sl "FILING-DATE")
      = some (.str (sl "20240101")) := by
  intro fuel bottom rest warns
  refine ⟨?_, lookupR_setKey_self _ _ _⟩
  simp only [processTxtHeader]
  rw [if_neg (by decide : ¬(pyStrip (sl "FILED AS OF DATE:20240101\n") = ([] : List Char)))]
  rw [if_neg (by decide)]
  rw [if_neg (by decide)]
  simp only [show splitOnce ':' (sl "FILED AS OF DATE:20240101\n")
      = [sl "FILED AS OF DATE", sl "20240101\n"] from by decide,
    show pyStrip (sl "FILED AS OF DATE") = sl "FILED AS OF DATE" from by decide,
    show pyStrip (sl "20240101\n") = sl "20240101" from by decide,
    hdrActiveScope, hdrActiveR, setActiveR]
  simp only [show lookupKM KEY_MAP (sl "FILED AS OF DATE")
      = some (KMEntry.plain (sl "FILING-DATE")) from rfl]
  rw [if_neg (by decide : ¬(field_is_array (sl "FILING-DATE") = true))]

/-- C10: a header line whose stripped key is not in the active scope's
remap table, or a line starting with `<ACCEPTANCE-DATETIME>`, leaves every
record and every stack frame unchanged: the parser moves on to the next
line, at most appending one warning. -/
theorem C10_unknown_header_line_frame :
    ∀ (fuel : Nat) (bottom : Record) (upper : List HFrame) (line : List Char)
      (rest : List (List Char)) (warns : List Warning),
    pyStrip line ≠ [] →
    (sl "</SEC-HEADER>").isPrefixOf line = false →
    ((sl "<ACCEPTANCE-DATETIME>").isPrefixOf line = true
      ∨ lookupKM (hdrActiveScope upper) (pyStrip ((splitOnce ':' line).headD [])) = none) →
    ∃ warns',
      processTxtHeader (fuel+1) bottom upper (line :: rest) warns
        = processTxtHeader fuel bottom upper rest warns'
      ∧ (warns' = warns ∨ ∃ wmsg, warns' = warns ++ [wmsg]) := by
  intro fuel bottom upper line rest warns hblank hterm hcase
  by_cases hA : (sl "<ACCEPTANCE-DATETIME>").isPrefixOf line = true
  · refine ⟨warns, ?_, Or.inl rfl⟩
    simp only [processTxtHeader]
    rw [if_neg hblank]
    rw [if_neg (by rw [hterm]; simp)]
    rw [if_pos hA]
  · have hnone : lookupKM (hdrActiveScope upper)
        (pyStrip ((splitOnce ':' line).headD [])) = none := by
      rcases hcase with h | h
      · exact absurd h hA
      · exact h
    obtain ⟨p0, ps, hsp⟩ : ∃ p0 ps, splitOnce ':' line = p0 :: ps := by
      cases hsp : splitOnce ':' line with
      | nil => exact absurd hsp (splitOnce_ne_nil ':' line)
      | cons p0 ps => exact ⟨p0, ps, rfl⟩
    rw [hsp] at hnone
    simp only [List.headD_cons] at hnone
    simp only [processTxtHeader]
    rw [if_neg hblank]
    rw [if_neg (by rw [hterm]; simp)]
    rw [if_neg hA]
    simp only [hsp, hnone]
    refine ⟨_, rfl, ?_⟩
    by_cases hw : pyStrip p0 ≠ [] ∧
        (match ps with | [] => ([] : List Char) | p1 :: _ => pyStrip p1) ≠ [] ∧
        pyStrip p0 ≠ sl "ITEM INFORMATION"
    · exact Or.inr ⟨_, by rw [if_pos hw]⟩
    · exact Or.inl (by rw [if_neg hw])

/-- Witness for C10: the unknown header line `WEIRD KEY:stuff` continues
parsing with the state unchanged, logging at most one warning. -/
theorem C10_witness :
    ∃ warns',
      processTxtHeader 5 [] [] [sl "WEIRD KEY:stuff\n"] []
        = processTxtHeader 4 [] [] [] warns'
      ∧ (warns' = ([] : List Warning) ∨ ∃ wmsg, warns' = [] ++ [wmsg]) :=
  C10_unknown_header_line_frame 4 [] [] (sl "WEIRD KEY:stuff\n") [] []
    (by decide) (by decide) (Or.inr rfl)
